import Mathlib

/-!
# Smart traffic system: sensor registry

A shallow embedding of `src/traffic_system.c` and the properties of its
registry operations.

Modelling conventions.

* The global variables `sensors`, `sensor_count`, `sensor_capacity` form the
  state `SystemState`.  The pointer array `sensors` is a list of slots; a slot
  holds `none` for a null (or not yet written) pointer and `some s` for a
  pointer to the heap object `s`.  A pointer returned by `find_sensor` is the
  index of its slot together with the object it points to.
* `time(NULL)` is an input `now` of each operation that calls it, and
  `difftime(a, b)` is the integer difference `a - b`.
* The outcome of each `malloc` / `calloc` / `realloc` is an input of the
  operation that calls it.
* `int` and `time_t` values are integers, `size_t` values are naturals (no
  successful allocation can make a `size_t` computation here wrap).  The
  `int` counter of `garbage_collect` wraps at 32 bits.
* A `float` is a NaN, an infinity, or a finite binary fraction
  `mantissa * 2 ^ exponent`; comparisons follow IEEE 754 (every ordered
  comparison with a NaN is false).
* `printf` output is not modelled.
-/

namespace TrafficSystem

/-! ## Floats -/

/-- A C `float` value, as far as its comparisons are concerned. -/
inductive CFloat where
  | nan : CFloat
  | neg_inf : CFloat
  | pos_inf : CFloat
  | fin (mantissa : Int) (exponent : Int) : CFloat
  deriving DecidableEq, Repr

namespace CFloat

/-- The float obtained by converting a (small) C integer constant. -/
def ofInt (n : Int) : CFloat := fin n 0

/-- The float `+0.0`, all bits zero. -/
def zero : CFloat := fin 0 0

/-- Comparison `m1 * 2^e1 < m2 * 2^e2` of two finite values, by scaling both
to the smaller exponent. -/
def fin_lt (m1 e1 m2 e2 : Int) : Bool :=
  let e := min e1 e2
  decide (m1 * 2 ^ (e1 - e).toNat < m2 * 2 ^ (e2 - e).toNat)

/-- Comparison `m1 * 2^e1 <= m2 * 2^e2` of two finite values. -/
def fin_le (m1 e1 m2 e2 : Int) : Bool :=
  let e := min e1 e2
  decide (m1 * 2 ^ (e1 - e).toNat ≤ m2 * 2 ^ (e2 - e).toNat)

/-- The C operator `<` on floats. -/
def lt : CFloat → CFloat → Bool
  | nan, _ => false
  | _, nan => false
  | neg_inf, neg_inf => false
  | neg_inf, _ => true
  | _, neg_inf => false
  | pos_inf, _ => false
  | fin _ _, pos_inf => true
  | fin m1 e1, fin m2 e2 => fin_lt m1 e1 m2 e2

/-- The C operator `<=` on floats. -/
def le : CFloat → CFloat → Bool
  | nan, _ => false
  | _, nan => false
  | neg_inf, _ => true
  | _, neg_inf => false
  | pos_inf, pos_inf => true
  | pos_inf, _ => false
  | fin _ _, pos_inf => true
  | fin m1 e1, fin m2 e2 => fin_le m1 e1 m2 e2

/-- The C operator `>` on floats. -/
def gt (a b : CFloat) : Bool := lt b a

end CFloat

/-! ## Data model -/

/-- The struct `TrafficSensor`.  `location` is the 50-byte array,
`sensor_readings` the heap buffer the pointer of that name points to. -/
structure TrafficSensor where
  sensor_id : Int
  location : List Nat
  current_status : Int
  last_updated : Int
  sensor_readings : List CFloat
  readings_count : Nat
  readings_capacity : Nat
  is_active : Bool
  deriving DecidableEq, Repr

/-- The global variables of the program. -/
structure SystemState where
  sensors : List (Option TrafficSensor)
  sensor_count : Nat
  sensor_capacity : Nat
  deriving DecidableEq, Repr

/-- The state at program start: `sensors = NULL`, both counters zero. -/
def initial : SystemState :=
  { sensors := [], sensor_count := 0, sensor_capacity := 0 }

/-- The pointer `sensors[i]`. -/
def slot (sensors : List (Option TrafficSensor)) (i : Nat) : Option TrafficSensor :=
  sensors.getD i none

/-- The sensors of the registry in registry order: the objects that the
pointers `sensors[0]`, ..., `sensors[sensor_count - 1]` point to. -/
def entries (st : SystemState) : List TrafficSensor :=
  (st.sensors.take st.sensor_count).filterMap id

/-- The stored readings of a sensor: positions `0` to `readings_count - 1` of
its buffer. -/
def readings (s : TrafficSensor) : List CFloat :=
  s.sensor_readings.take s.readings_count

/-- Writing through the pointer `sensors[i]`: the object it points to becomes `s`. -/
def store (st : SystemState) (i : Nat) (s : TrafficSensor) : SystemState :=
  { st with sensors := st.sensors.set i (some s) }

/-! ## Library functions -/

/-- The bytes `strncpy(dst, src, n)` writes to `dst[0..n-1]`: the characters of
`src` up to its terminator, then zero bytes.  The end of the list `src` counts
as a terminator. -/
def strncpy : List Nat → Nat → List Nat
  | _, 0 => []
  | [], n + 1 => 0 :: strncpy [] n
  | c :: cs, n + 1 => if c = 0 then 0 :: strncpy [] n else c :: strncpy cs n

/-- The C string held in a byte array: the bytes before the first zero byte. -/
def c_string (bytes : List Nat) : List Nat :=
  bytes.takeWhile (fun c => c ≠ 0)

/-- The pointer array after a successful `realloc` to `new_capacity` slots:
the old slots are kept, new slots hold no valid pointer. -/
def realloc_sensors (sensors : List (Option TrafficSensor)) (new_capacity : Nat) :
    List (Option TrafficSensor) :=
  (sensors ++ List.replicate new_capacity none).take new_capacity

/-- The readings buffer after a successful `realloc` to `new_capacity` slots:
the old slots are kept, the new slots hold the indeterminate values `fresh`. -/
def realloc_readings (buf : List CFloat) (new_capacity : Nat) (fresh : List CFloat) :
    List CFloat :=
  (buf ++ fresh ++ List.replicate new_capacity CFloat.zero).take new_capacity

/-- The buffer after `memset(buf, 0, n * sizeof(float))`: its first `n` slots are `+0.0`. -/
def memset_zero (buf : List CFloat) (n : Nat) : List CFloat :=
  (buf.take n).map (fun _ => CFloat.zero) ++ buf.drop n

/-- Wrap-around of a 32-bit `int`. -/
def int_wrap (x : Int) : Int := (x + 2 ^ 31) % 2 ^ 32 - 2 ^ 31

/-! ## The operations -/

/-- The function `validate_sensor_data`. -/
def validate_sensor_data (value : CFloat) : Int :=
  if CFloat.lt value (CFloat.ofInt 0) || CFloat.gt value (CFloat.ofInt 1000) then -1 else 0

/-- The function `handle_buffer_overflow`, on the object `sensor` points to. -/
def handle_buffer_overflow (now : Int) (sensor : TrafficSensor) : TrafficSensor :=
  { sensor with
    readings_count := 0
    sensor_readings := memset_zero sensor.sensor_readings sensor.readings_capacity
    last_updated := now }

/-- The loop of `find_sensor`, with `remaining` iterations left at index `i`. -/
def find_sensor_loop (sensors : List (Option TrafficSensor)) (id : Int) :
    (remaining : Nat) → (i : Nat) → Option (Nat × TrafficSensor)
  | 0, _ => none
  | n + 1, i =>
    match slot sensors i with
    | some s => if s.sensor_id = id then some (i, s) else find_sensor_loop sensors id n (i + 1)
    | none => find_sensor_loop sensors id n (i + 1)

/-- The function `find_sensor`: the pointer it returns is the slot index and the
object pointed to; `none` is `NULL`. -/
def find_sensor (st : SystemState) (id : Int) : Option (Nat × TrafficSensor) :=
  find_sensor_loop st.sensors id st.sensor_count 0

/-- The object `new_sensor` of `add_sensor` after its initialisation: the
assignments of `add_sensor` to its fields, with the zeroed buffer that `calloc`
returns. -/
def init_sensor (now : Int) (id : Int) (loc : List Nat) : TrafficSensor :=
  { sensor_id := id
    location := strncpy loc 49 ++ [0]
    current_status := 0
    last_updated := now
    is_active := true
    readings_count := 0
    readings_capacity := 4
    sensor_readings := List.replicate 4 CFloat.zero }

/-- The function `add_sensor`.  `realloc_ok`, `malloc_ok`, `calloc_ok` tell
whether the respective allocation succeeds. -/
def add_sensor (now : Int) (realloc_ok malloc_ok calloc_ok : Bool) (id : Int)
    (loc : List Nat) (st : SystemState) : Int × SystemState :=
  if (find_sensor st id).isSome then (-1, st)
  else
    let resized : Option SystemState :=
      if st.sensor_count ≥ st.sensor_capacity then
        let new_capacity := if st.sensor_capacity ≠ 0 then st.sensor_capacity * 2 else 4
        if realloc_ok then
          some { st with
            sensors := realloc_sensors st.sensors new_capacity
            sensor_capacity := new_capacity }
        else none
      else some st
    match resized with
    | none => (-1, st)
    | some st1 =>
      if !malloc_ok then (-1, st1)
      else
        let new_sensor : TrafficSensor := init_sensor now id loc
        if !calloc_ok then (-1, st1)
        else
          (0, { st1 with
            sensors := st1.sensors.set st1.sensor_count (some new_sensor)
            sensor_count := st1.sensor_count + 1 })

/-- The inner loop of `remove_sensor`: `sensors[j] = sensors[j + 1]`, with
`remaining` iterations left at index `j`. -/
def shift_loop : (remaining : Nat) → (j : Nat) → List (Option TrafficSensor) →
    List (Option TrafficSensor)
  | 0, _, sensors => sensors
  | n + 1, j, sensors => shift_loop n (j + 1) (sensors.set j (slot sensors (j + 1)))

/-- The outer loop of `remove_sensor`, with `remaining` iterations left at index `i`. -/
def remove_sensor_loop (st : SystemState) (id : Int) :
    (remaining : Nat) → (i : Nat) → Int × SystemState
  | 0, _ => (-1, st)
  | n + 1, i =>
    match slot st.sensors i with
    | some s =>
      if s.sensor_id = id then
        (0, { st with
          sensors := shift_loop (st.sensor_count - 1 - i) i st.sensors
          sensor_count := st.sensor_count - 1 })
      else remove_sensor_loop st id n (i + 1)
    | none => remove_sensor_loop st id n (i + 1)

/-- The function `remove_sensor`. -/
def remove_sensor (id : Int) (st : SystemState) : Int × SystemState :=
  remove_sensor_loop st id st.sensor_count 0

/-- The function `add_sensor_reading`.  `realloc_result` is `none` when
`realloc` returns `NULL`, and `some fresh` when it succeeds, `fresh` being the
indeterminate contents of the new slots. -/
def add_sensor_reading (now : Int) (realloc_result : Option (List CFloat))
    (sensor_id : Int) (value : CFloat) (st : SystemState) : Int × SystemState :=
  match find_sensor st sensor_id with
  | none => (-1, st)
  | some (i, sensor) =>
    if validate_sensor_data value ≠ 0 then
      (-1, store st i (handle_buffer_overflow now sensor))
    else
      let grown : Option TrafficSensor :=
        if sensor.readings_count ≥ sensor.readings_capacity then
          let new_capacity := sensor.readings_capacity * 2
          match realloc_result with
          | none => none
          | some fresh =>
            some { sensor with
              sensor_readings := realloc_readings sensor.sensor_readings new_capacity fresh
              readings_capacity := new_capacity }
        else some sensor
      match grown with
      | none => (-1, st)
      | some sensor1 =>
        (0, store st i
          { sensor1 with
            sensor_readings := sensor1.sensor_readings.set sensor1.readings_count value
            readings_count := sensor1.readings_count + 1
            last_updated := now })

/-- The function `update_sensor_status`. -/
def update_sensor_status (now : Int) (sensor_id : Int) (status : Int)
    (st : SystemState) : Int × SystemState :=
  if status < 0 ∨ status > 2 then (-1, st)
  else
    match find_sensor st sensor_id with
    | none => (-1, st)
    | some (i, sensor) =>
      (0, store st i { sensor with current_status := status, last_updated := now })

/-- The constant `STALE_THRESHOLD` of `garbage_collect`. -/
def STALE_THRESHOLD : Int := 3600

/-- The loop of `garbage_collect` for a given threshold, with `remaining`
iterations left at index `i`; `collected` is the counter. -/
def garbage_collect_loop (now threshold : Int) :
    (remaining : Nat) → (i : Nat) → List (Option TrafficSensor) → (collected : Int) →
    Int × List (Option TrafficSensor)
  | 0, _, sensors, collected => (collected, sensors)
  | n + 1, i, sensors, collected =>
    match slot sensors i with
    | some s =>
      if now - s.last_updated > threshold then
        garbage_collect_loop now threshold n (i + 1)
          (sensors.set i (some { s with is_active := false })) (int_wrap (collected + 1))
      else garbage_collect_loop now threshold n (i + 1) sensors collected
    | none => garbage_collect_loop now threshold n (i + 1) sensors collected

/-- The body of `garbage_collect` with the threshold as a parameter.  The
first component is the final value of `collected`, which the function prints. -/
def garbage_collect_with (threshold : Int) (now : Int) (st : SystemState) :
    Int × SystemState :=
  let r := garbage_collect_loop now threshold st.sensor_count 0 st.sensors 0
  (r.1, { st with sensors := r.2 })

/-- The function `garbage_collect`. -/
def garbage_collect (now : Int) (st : SystemState) : Int × SystemState :=
  garbage_collect_with STALE_THRESHOLD now st

/-! ## Runs of the program -/

/-- One call of a registry operation, with its arguments and the outcomes of
the clock and of the allocator during the call. -/
inductive Op where
  | add (now : Int) (realloc_ok malloc_ok calloc_ok : Bool) (id : Int) (loc : List Nat)
  | remove (id : Int)
  | reading (now : Int) (realloc_result : Option (List CFloat)) (id : Int) (value : CFloat)
  | status (now : Int) (id : Int) (status : Int)
  | collect (now : Int)

/-- The state after one call. -/
def step (st : SystemState) : Op → SystemState
  | .add now r m c id loc => (add_sensor now r m c id loc st).2
  | .remove id => (remove_sensor id st).2
  | .reading now r id v => (add_sensor_reading now r id v st).2
  | .status now id s => (update_sensor_status now id s st).2
  | .collect now => (garbage_collect now st).2

/-- The state after a sequence of calls. -/
def run (ops : List Op) (st : SystemState) : SystemState :=
  ops.foldl step st

/-- The states the program can be in: those a finite sequence of calls
produces from the initial state. -/
def Reachable (st : SystemState) : Prop :=
  ∃ ops : List Op, run ops initial = st

/-! ## Auxiliary notions -/

/-- The sensors in the slots before slot `k`. -/
def entries_before (st : SystemState) (k : Nat) : List TrafficSensor :=
  (st.sensors.take k).filterMap id

/-- The sensors in the slots after slot `k`, up to `sensor_count`. -/
def entries_after (st : SystemState) (k : Nat) : List TrafficSensor :=
  ((st.sensors.take st.sensor_count).drop (k + 1)).filterMap id

/-- The buffer of a sensor is consistent: it has `readings_capacity` slots, of
which `readings_count` are in use, and the capacity is not zero. -/
def sensor_ok (s : TrafficSensor) : Prop :=
  s.sensor_readings.length = s.readings_capacity ∧
  s.readings_count ≤ s.readings_capacity ∧
  0 < s.readings_capacity

instance (s : TrafficSensor) : Decidable (sensor_ok s) := by
  unfold sensor_ok; infer_instance

/-- The pointer array is consistent: it has `sensor_capacity` slots, of which
`sensor_count` are in use. -/
def array_ok (st : SystemState) : Prop :=
  st.sensors.length = st.sensor_capacity ∧ st.sensor_count ≤ st.sensor_capacity

instance (st : SystemState) : Decidable (array_ok st) := by
  unfold array_ok; infer_instance

/-- The ids of the sensors of the registry, in registry order. -/
def ids (st : SystemState) : List Int :=
  (entries st).map (fun s => s.sensor_id)

/-- Some sensor of the registry has the id `id`. -/
def present (st : SystemState) (id : Int) : Prop :=
  ∃ s ∈ entries st, s.sensor_id = id

instance (st : SystemState) (id : Int) : Decidable (present st id) := by
  unfold present; infer_instance

/-- The value is outside the band `[0, 1000]`: below `0` or above `1000`. -/
def out_of_band (value : CFloat) : Prop :=
  CFloat.lt value (CFloat.ofInt 0) = true ∨ CFloat.gt value (CFloat.ofInt 1000) = true

instance (value : CFloat) : Decidable (out_of_band value) := by
  unfold out_of_band; infer_instance

/-- The value is inside the band: `0 <= value` and `value <= 1000`. -/
def in_band (value : CFloat) : Prop :=
  CFloat.le (CFloat.ofInt 0) value = true ∧ CFloat.le value (CFloat.ofInt 1000) = true

instance (value : CFloat) : Decidable (in_band value) := by
  unfold in_band; infer_instance

/-- A sequence of calls of `add_sensor_reading` for the sensor `id`, each with
its clock value, the outcome of its `realloc` and its value, as long as every
call returns 0; `none` when some call fails. -/
def append_readings (id : Int) :
    List (Int × Option (List CFloat) × CFloat) → SystemState → Option SystemState
  | [], st => some st
  | (now, realloc_result, value) :: rest, st =>
    if (add_sensor_reading now realloc_result id value st).1 = 0 then
      append_readings id rest (add_sensor_reading now realloc_result id value st).2
    else none

/-- What a sweep with the given threshold does to one sensor: a sensor whose
last update is more than `threshold` old becomes inactive. -/
def demote (threshold now : Int) (s : TrafficSensor) : TrafficSensor :=
  if now - s.last_updated > threshold then { s with is_active := false } else s

/-- The sensor's last update is more than `threshold` old. -/
def stale (threshold now : Int) (s : TrafficSensor) : Bool :=
  decide (now - s.last_updated > threshold)

/-- The counter of `garbage_collect` after the loop has passed over the given
slots, starting from the value `collected`. -/
def count_slots (threshold now : Int) : List (Option TrafficSensor) → Int → Int
  | [], collected => collected
  | some s :: rest, collected =>
    if now - s.last_updated > threshold then
      count_slots threshold now rest (int_wrap (collected + 1))
    else count_slots threshold now rest collected
  | none :: rest, collected => count_slots threshold now rest collected

/-- The number of sensors demoted between two listings of the same sensors:
those active in the first and inactive in the second. -/
def demoted_count (before after : List TrafficSensor) : Nat :=
  ((before.zip after).filter (fun p => p.1.is_active && !p.2.is_active)).length

/-! ## Sample states -/

/-- A registry with the sensors 1, 2, 3, added at the times 0, 10 and 20. -/
def sample_registry : SystemState :=
  run [Op.add 0 true true true 1 [77, 97, 105, 110], Op.add 10 true true true 2 [],
    Op.add 20 true true true 3 []] initial

/-- A sensor whose buffer of capacity 4 is full. -/
def sample_full_sensor : TrafficSensor :=
  { sensor_id := 1
    location := strncpy [] 49 ++ [0]
    current_status := 0
    last_updated := 4
    sensor_readings := [CFloat.fin 10 0, CFloat.fin 20 0, CFloat.fin 30 0, CFloat.fin 40 0]
    readings_count := 4
    readings_capacity := 4
    is_active := true }

/-- A registry of the sensors 1 and 2 in which sensor 1 has four readings,
so that its buffer is full. -/
def sample_full_registry : SystemState :=
  run [Op.add 0 true true true 1 [],
    Op.reading 1 none 1 (CFloat.fin 10 0), Op.reading 2 none 1 (CFloat.fin 20 0),
    Op.reading 3 none 1 (CFloat.fin 30 0), Op.reading 4 none 1 (CFloat.fin 40 0),
    Op.add 5 true true true 2 []] initial

/-! ## The effect of a call on one sensor -/

/-- What one call of an operation can do to a sensor that stays in the
registry: nothing, a demotion by `garbage_collect`, a status update, a reset by
`handle_buffer_overflow`, or the storing of an accepted value, without or
with a reallocation of the buffer. -/
inductive sensor_step (s : TrafficSensor) : TrafficSensor → Prop where
  | same : sensor_step s s
  | swept (threshold now : Int) : sensor_step s (demote threshold now s)
  | status (now status : Int) (h0 : 0 ≤ status) (h2 : status ≤ 2) :
      sensor_step s { s with current_status := status, last_updated := now }
  | reset (now : Int) : sensor_step s (handle_buffer_overflow now s)
  | stored (now : Int) (value : CFloat) (hv : validate_sensor_data value = 0)
      (hroom : ¬ s.readings_count ≥ s.readings_capacity) :
      sensor_step s
        { s with
          sensor_readings := s.sensor_readings.set s.readings_count value
          readings_count := s.readings_count + 1
          last_updated := now }
  | grown_stored (now : Int) (value : CFloat) (fresh : List CFloat)
      (hv : validate_sensor_data value = 0)
      (hfull : s.readings_count ≥ s.readings_capacity) :
      sensor_step s
        { s with
          sensor_readings :=
            (realloc_readings s.sensor_readings (s.readings_capacity * 2) fresh).set
              s.readings_count value
          readings_capacity := s.readings_capacity * 2
          readings_count := s.readings_count + 1
          last_updated := now }

/-- The table `status_names`. -/
def status_names : List String := ["RED", "YELLOW", "GREEN"]

/-- The ids given to the `add_sensor` calls of a sequence of calls. -/
def added_ids : List Op → List Int
  | [] => []
  | Op.add _ _ _ _ id _ :: rest => id :: added_ids rest
  | _ :: rest => added_ids rest

/-- The calls that produce `sample_full_registry`. -/
def sample_full_ops : List Op :=
  [Op.add 0 true true true 1 [],
    Op.reading 1 none 1 (CFloat.fin 10 0), Op.reading 2 none 1 (CFloat.fin 20 0),
    Op.reading 3 none 1 (CFloat.fin 30 0), Op.reading 4 none 1 (CFloat.fin 40 0),
    Op.add 5 true true true 2 []]

/-- The sample registry after a sweep at time 3615, which has demoted the
sensors 1 and 2. -/
def sample_swept_registry : SystemState :=
  (garbage_collect 3615 sample_registry).2

/-- Sensor 1 of `sample_swept_registry`, inactive. -/
def sample_inactive_sensor : TrafficSensor :=
  { init_sensor 0 1 [77, 97, 105, 110] with is_active := false }

/-- Sensor 1 of `sample_swept_registry` after the reading 45 at time 3700. -/
def sample_inactive_sensor_after : TrafficSensor :=
  { sample_inactive_sensor with
    sensor_readings := [CFloat.fin 45 0, CFloat.zero, CFloat.zero, CFloat.zero]
    readings_count := 1
    last_updated := 3700 }

/-- A registry of the one sensor 1, which holds the single reading 45. -/
def sample_logged_registry : SystemState :=
  run [Op.add 0 true true true 1 [], Op.reading 1 none 1 (CFloat.fin 45 0)] initial

/-! ## Pointers and slots -/

theorem slot_set (sensors : List (Option TrafficSensor)) (k j : Nat) (v : Option TrafficSensor) :
    slot (sensors.set k v) j = if j = k ∧ k < sensors.length then v else slot sensors j := by
  unfold slot
  simp only [List.getD_eq_getElem?_getD, List.getElem?_set]
  by_cases h : k = j
  · subst h
    by_cases hk : k < sensors.length
    · simp [hk]
    · simp [hk]
      have : sensors[k]? = none := by simp; omega
      simp [this]
  · have : ¬ (j = k ∧ k < sensors.length) := by
      intro hh; exact h hh.1.symm
    simp [h, this]

theorem slot_eq_some_lt {sensors : List (Option TrafficSensor)} {k : Nat} {s : TrafficSensor}
    (h : slot sensors k = some s) : k < sensors.length := by
  unfold slot at h
  by_contra hk
  have : sensors[k]? = none := by simp; omega
  simp [List.getD_eq_getElem?_getD, this] at h

theorem slot_eq_some_iff {sensors : List (Option TrafficSensor)} {k : Nat} {s : TrafficSensor} :
    slot sensors k = some s ↔ sensors[k]? = some (some s) := by
  unfold slot
  simp only [List.getD_eq_getElem?_getD]
  cases h : sensors[k]? with
  | none => simp
  | some o => simp

theorem find_sensor_loop_none {sensors : List (Option TrafficSensor)} {id : Int} :
    ∀ (n i : Nat), find_sensor_loop sensors id n i = none ↔
      ∀ j, i ≤ j → j < i + n → ∀ t, slot sensors j = some t → t.sensor_id ≠ id := by
  intro n
  induction n with
  | zero => intro i; simp [find_sensor_loop]; intro j h1 h2; omega
  | succ n ih =>
    intro i
    simp only [find_sensor_loop]
    cases hs : slot sensors i with
    | none =>
      simp only [ih]
      constructor
      · intro h j h1 h2 t ht
        by_cases hj : j = i
        · subst hj; rw [hs] at ht; cases ht
        · exact h j (by omega) (by omega) t ht
      · intro h j h1 h2 t ht
        exact h j (by omega) (by omega) t ht
    | some s =>
      by_cases hid : s.sensor_id = id
      · simp only [hid, if_true]
        constructor
        · intro h; cases h
        · intro h; exact absurd hid (h i (le_refl _) (by omega) s hs)
      · simp only [hid, if_false, ih]
        constructor
        · intro h j h1 h2 t ht
          by_cases hj : j = i
          · subst hj; rw [hs] at ht; cases ht; exact hid
          · exact h j (by omega) (by omega) t ht
        · intro h j h1 h2 t ht
          exact h j (by omega) (by omega) t ht

theorem find_sensor_loop_some {sensors : List (Option TrafficSensor)} {id : Int} :
    ∀ (n i k : Nat) (s : TrafficSensor), find_sensor_loop sensors id n i = some (k, s) ↔
      (i ≤ k ∧ k < i + n ∧ slot sensors k = some s ∧ s.sensor_id = id ∧
        ∀ j, i ≤ j → j < k → ∀ t, slot sensors j = some t → t.sensor_id ≠ id) := by
  intro n
  induction n with
  | zero => intro i k s; simp [find_sensor_loop]; intro h1 h2; omega
  | succ n ih =>
    intro i k s
    simp only [find_sensor_loop]
    cases hs : slot sensors i with
    | none =>
      simp only [ih]
      constructor
      · rintro ⟨h1, h2, h3, h4, h5⟩
        refine ⟨by omega, by omega, h3, h4, ?_⟩
        intro j hj1 hj2 t ht
        by_cases hj : j = i
        · subst hj; rw [hs] at ht; cases ht
        · exact h5 j (by omega) hj2 t ht
      · rintro ⟨h1, h2, h3, h4, h5⟩
        have hne : k ≠ i := by
          intro hk; subst hk; rw [hs] at h3; cases h3
        refine ⟨by omega, by omega, h3, h4, ?_⟩
        intro j hj1 hj2 t ht
        exact h5 j (by omega) hj2 t ht
    | some s0 =>
      by_cases hid : s0.sensor_id = id
      · simp only [hid, if_true]
        constructor
        · intro h
          simp only [Option.some.injEq, Prod.mk.injEq] at h
          obtain ⟨h1, h2⟩ := h
          subst h1; subst h2
          refine ⟨le_refl _, by omega, hs, hid, ?_⟩
          intro j hj1 hj2; omega
        · rintro ⟨h1, h2, h3, h4, h5⟩
          by_cases hk : k = i
          · subst hk; rw [hs] at h3; cases h3; rfl
          · exact absurd hid (h5 i (le_refl _) (by omega) s0 hs)
      · simp only [hid, if_false, ih]
        constructor
        · rintro ⟨h1, h2, h3, h4, h5⟩
          refine ⟨by omega, by omega, h3, h4, ?_⟩
          intro j hj1 hj2 t ht
          by_cases hj : j = i
          · subst hj; rw [hs] at ht; cases ht; exact hid
          · exact h5 j (by omega) hj2 t ht
        · rintro ⟨h1, h2, h3, h4, h5⟩
          have hne : k ≠ i := by
            intro hk; subst hk; rw [hs] at h3; cases h3; exact hid h4
          refine ⟨by omega, by omega, h3, h4, ?_⟩
          intro j hj1 hj2 t ht
          exact h5 j (by omega) hj2 t ht

theorem mem_entries {st : SystemState} {s : TrafficSensor} :
    s ∈ entries st ↔ ∃ k, k < st.sensor_count ∧ slot st.sensors k = some s := by
  unfold entries
  simp only [List.mem_filterMap, id_eq, exists_eq_right]
  rw [List.mem_iff_getElem?]
  constructor
  · rintro ⟨k, hk⟩
    rw [List.getElem?_take] at hk
    by_cases hlt : k < st.sensor_count
    · simp only [hlt, if_true] at hk
      exact ⟨k, hlt, slot_eq_some_iff.mpr hk⟩
    · simp [hlt] at hk
  · rintro ⟨k, hlt, hk⟩
    refine ⟨k, ?_⟩
    rw [List.getElem?_take]
    simp only [hlt, if_true]
    exact slot_eq_some_iff.mp hk

theorem take_split {l : List (Option TrafficSensor)} {n k : Nat} {s : TrafficSensor}
    (hk : k < n) (hs : slot l k = some s) :
    l.take n = l.take k ++ some s :: (l.take n).drop (k + 1) := by
  have hlen : k < (l.take n).length := by
    have := slot_eq_some_lt hs
    simp; omega
  have h1 : l.take n = (l.take n).take k ++ (l.take n).drop k := (List.take_append_drop k _).symm
  have h2 : (l.take n).drop k = (l.take n)[k] :: (l.take n).drop (k + 1) :=
    List.drop_eq_getElem_cons hlen
  have h3 : (l.take n).take k = l.take k := by
    rw [List.take_take]; congr 1; omega
  have h4 : (l.take n)[k] = some s := by
    have := slot_eq_some_iff.mp hs
    have h5 : (l.take n)[k]? = some (some s) := by
      rw [List.getElem?_take]; simp [hk, this]
    rw [List.getElem?_eq_getElem hlen] at h5
    exact Option.some.inj h5
  rw [h2, h3, h4] at h1
  exact h1

theorem take_set_split {l : List (Option TrafficSensor)} {n k : Nat} (v : Option TrafficSensor)
    (hk : k < n) (hl : k < l.length) :
    (l.set k v).take n = l.take k ++ v :: (l.take n).drop (k + 1) := by
  have hlen : k < (l.take n).length := by simp; omega
  rw [List.set_take, List.set_eq_take_append_cons_drop]
  simp only [hlen, if_true]
  rw [List.take_take]
  congr 2
  omega

theorem entries_split {st : SystemState} {k : Nat} {s : TrafficSensor}
    (hk : k < st.sensor_count) (hs : slot st.sensors k = some s) :
    entries st = entries_before st k ++ s :: entries_after st k := by
  unfold entries entries_before entries_after
  conv_lhs => rw [take_split hk hs]
  simp [List.filterMap_append, List.filterMap_cons]

theorem entries_store {st : SystemState} {k : Nat} {s : TrafficSensor} (s1 : TrafficSensor)
    (hk : k < st.sensor_count) (hs : slot st.sensors k = some s) :
    entries (store st k s1) = entries_before st k ++ s1 :: entries_after st k := by
  unfold entries entries_before entries_after store
  simp only
  rw [take_set_split _ hk (slot_eq_some_lt hs)]
  simp [List.filterMap_append, List.filterMap_cons]

theorem mem_entries_before {st : SystemState} {k : Nat} {s : TrafficSensor} :
    s ∈ entries_before st k ↔ ∃ j, j < k ∧ slot st.sensors j = some s := by
  have := @mem_entries { st with sensor_count := k } s
  exact this

theorem find_sensor_none_iff {st : SystemState} {id : Int} :
    find_sensor st id = none ↔ ∀ s ∈ entries st, s.sensor_id ≠ id := by
  unfold find_sensor
  rw [find_sensor_loop_none]
  constructor
  · intro h s hs
    obtain ⟨k, hk, hsl⟩ := mem_entries.mp hs
    exact h k (Nat.zero_le _) (by omega) s hsl
  · intro h j _ hj t ht
    exact h t (mem_entries.mpr ⟨j, by omega, ht⟩)

theorem find_sensor_some_iff {st : SystemState} {id : Int} {k : Nat} {s : TrafficSensor} :
    find_sensor st id = some (k, s) ↔
      (k < st.sensor_count ∧ slot st.sensors k = some s ∧ s.sensor_id = id ∧
        ∀ x ∈ entries_before st k, x.sensor_id ≠ id) := by
  unfold find_sensor
  rw [find_sensor_loop_some]
  constructor
  · rintro ⟨_, h2, h3, h4, h5⟩
    refine ⟨by omega, h3, h4, ?_⟩
    intro x hx
    obtain ⟨j, hj, hsl⟩ := mem_entries_before.mp hx
    exact h5 j (Nat.zero_le _) hj x hsl
  · rintro ⟨h2, h3, h4, h5⟩
    refine ⟨Nat.zero_le _, by omega, h3, h4, ?_⟩
    intro j _ hj t ht
    exact h5 t (mem_entries_before.mpr ⟨j, hj, ht⟩)

/-- The sensor a successful lookup returns is in the registry, it is the first
with the requested id, and writing through the returned pointer replaces that
entry and no other. -/
theorem find_sensor_split {st : SystemState} {id : Int} {k : Nat} {s : TrafficSensor}
    (h : find_sensor st id = some (k, s)) :
    entries st = entries_before st k ++ s :: entries_after st k ∧
    s.sensor_id = id ∧
    (∀ x ∈ entries_before st k, x.sensor_id ≠ id) ∧
    ∀ s1, entries (store st k s1) = entries_before st k ++ s1 :: entries_after st k := by
  obtain ⟨h1, h2, h3, h4⟩ := find_sensor_some_iff.mp h
  exact ⟨entries_split h1 h2, h3, h4, fun s1 => entries_store s1 h1 h2⟩

theorem find_sensor_isSome_iff {st : SystemState} {id : Int} :
    (find_sensor st id).isSome ↔ ∃ s ∈ entries st, s.sensor_id = id := by
  rw [← not_iff_not]
  simp only [Option.not_isSome_iff_eq_none, find_sensor_none_iff]
  push_neg
  rfl

theorem find_sensor_store {st : SystemState} {id : Int} {k : Nat} {s s1 : TrafficSensor}
    (h : find_sensor st id = some (k, s)) (hid : s1.sensor_id = id) :
    find_sensor (store st k s1) id = some (k, s1) := by
  obtain ⟨h1, h2, h3, h4⟩ := find_sensor_some_iff.mp h
  rw [find_sensor_some_iff]
  have hl := slot_eq_some_lt h2
  refine ⟨h1, ?_, hid, ?_⟩
  · simp [store, slot_set, hl]
  · intro x hx
    obtain ⟨j, hj, hsl⟩ := mem_entries_before.mp hx
    simp only [store, slot_set] at hsl
    have : ¬ (j = k ∧ k < st.sensors.length) := by omega
    simp only [this, if_false] at hsl
    exact h4 x (mem_entries_before.mpr ⟨j, hj, hsl⟩)

/-! ## Validation -/

theorem fin_lt_zero_iff (m e : Int) :
    CFloat.fin_lt m e 0 0 = true ↔ ¬ (CFloat.fin_le 0 0 m e = true) := by
  simp only [CFloat.fin_lt, CFloat.fin_le, decide_eq_true_eq, min_comm e 0, not_le]

theorem fin_gt_iff (m e c : Int) :
    CFloat.fin_lt c 0 m e = true ↔ ¬ (CFloat.fin_le m e c 0 = true) := by
  simp only [CFloat.fin_lt, CFloat.fin_le, decide_eq_true_eq, min_comm e 0, not_le]

/-- On every value that is not a NaN the validator accepts exactly the band. -/
theorem validate_sensor_data_of_ne_nan (value : CFloat) (h : value ≠ CFloat.nan) :
    validate_sensor_data value = 0 ↔ in_band value := by
  unfold validate_sensor_data in_band
  cases value with
  | nan => exact absurd rfl h
  | neg_inf => simp [CFloat.lt, CFloat.le, CFloat.gt, CFloat.ofInt]
  | pos_inf => simp [CFloat.lt, CFloat.le, CFloat.gt, CFloat.ofInt]
  | fin m e =>
    simp only [CFloat.lt, CFloat.le, CFloat.gt, CFloat.ofInt]
    have h1 := fin_lt_zero_iff m e
    have h2 := fin_gt_iff m e 1000
    by_cases a : CFloat.fin_le 0 0 m e = true <;> by_cases b : CFloat.fin_le m e 1000 0 = true <;>
      simp_all

theorem validate_sensor_data_of_out_of_band (value : CFloat) (h : out_of_band value) :
    validate_sensor_data value = -1 := by
  unfold validate_sensor_data
  unfold out_of_band at h
  rcases h with h | h <;> simp [h]

/-- C6, at the failing input: a NaN is below neither bound and above neither,
so `validate_sensor_data` returns 0 for it, although `0 <= NaN <= 1000` is false. -/
theorem validate_sensor_data_accepts_nan :
    validate_sensor_data CFloat.nan = 0 ∧ ¬ in_band CFloat.nan := by
  decide

/-! ## `add_sensor` -/

theorem add_sensor_of_present {st : SystemState} {id : Int} (h : present st id)
    (now : Int) (realloc_ok malloc_ok calloc_ok : Bool) (loc : List Nat) :
    add_sensor now realloc_ok malloc_ok calloc_ok id loc st = (-1, st) := by
  unfold add_sensor
  rw [if_pos (find_sensor_isSome_iff.mpr h)]

theorem realloc_sensors_length (l : List (Option TrafficSensor)) (n : Nat) :
    (realloc_sensors l n).length = n := by
  simp [realloc_sensors]

theorem realloc_sensors_take (l : List (Option TrafficSensor)) (n k : Nat)
    (hk : k ≤ l.length) (hn : k ≤ n) :
    (realloc_sensors l n).take k = l.take k := by
  unfold realloc_sensors
  rw [List.take_take, Nat.min_eq_left hn, List.take_append_of_le_length hk]

theorem entries_push (l : List (Option TrafficSensor)) (n : Nat) (v : TrafficSensor)
    (h : n < l.length) :
    ((l.set n (some v)).take (n + 1)).filterMap id = (l.take n).filterMap id ++ [v] := by
  rw [take_set_split (some v) (Nat.lt_succ_self n) h]
  have : (l.take (n + 1)).drop (n + 1) = [] := by
    apply List.drop_eq_nil_of_le
    simp
  simp [this, List.filterMap_append]

/-- The state in which `add_sensor` stores the new sensor: the registry after
the resize step. -/
theorem add_sensor_of_absent {st : SystemState} {id : Int} (hok : array_ok st)
    (h : ¬ present st id) (now : Int) (loc : List Nat) :
    (add_sensor now true true true id loc st).1 = 0 ∧
    entries (add_sensor now true true true id loc st).2 =
      entries st ++ [init_sensor now id loc] ∧
    (add_sensor now true true true id loc st).2.sensor_count = st.sensor_count + 1 ∧
    array_ok (add_sensor now true true true id loc st).2 := by
  have hf : ¬ (find_sensor st id).isSome = true := fun hh => h (find_sensor_isSome_iff.mp hh)
  obtain ⟨hlen, hle⟩ := hok
  unfold add_sensor
  rw [if_neg hf]
  by_cases hfull : st.sensor_count ≥ st.sensor_capacity
  · have hcount : st.sensor_count = st.sensor_capacity := le_antisymm hle hfull
    simp only [hfull, if_true, Bool.not_true, Bool.false_eq_true, if_false]
    by_cases hz : st.sensor_capacity = 0
    · simp only [hz, ne_eq, not_true_eq_false, if_false]
      refine ⟨trivial, ?_, trivial, ?_⟩
      · unfold entries
        simp only
        rw [entries_push _ _ _ (by rw [realloc_sensors_length]; omega),
          realloc_sensors_take _ _ _ (by omega) (by omega)]
      · unfold array_ok
        simp [realloc_sensors_length]; omega
    · simp only [hz, ne_eq, not_false_eq_true, if_true]
      refine ⟨trivial, ?_, trivial, ?_⟩
      · unfold entries
        simp only
        rw [entries_push _ _ _ (by rw [realloc_sensors_length]; omega),
          realloc_sensors_take _ _ _ (by omega) (by omega)]
      · unfold array_ok
        simp [realloc_sensors_length]; omega
  · simp only [hfull, if_false, Bool.not_true, Bool.false_eq_true]
    refine ⟨trivial, ?_, trivial, ?_⟩
    · unfold entries
      simp only
      rw [entries_push _ _ _ (by omega)]
    · unfold array_ok
      simp; omega

/-- C2: when the id is already in the registry, `add_sensor` returns -1 for
every location (and every clock value and allocator outcome) and leaves the
whole state as it was, hence every entry and every field of every sensor. -/
theorem add_sensor_duplicate_rejected (st : SystemState) (id : Int) (h : present st id)
    (now : Int) (realloc_ok malloc_ok calloc_ok : Bool) (loc : List Nat) :
    (add_sensor now realloc_ok malloc_ok calloc_ok id loc st).1 = -1 ∧
    (add_sensor now realloc_ok malloc_ok calloc_ok id loc st).2 = st ∧
    entries (add_sensor now realloc_ok malloc_ok calloc_ok id loc st).2 = entries st := by
  rw [add_sensor_of_present h]
  exact ⟨rfl, rfl, rfl⟩

/-- C3: when the id is not in the registry and the allocations succeed,
`add_sensor` returns 0; the entries are the old entries followed by one new
sensor with the given id, status 0 (red), active, stamped with the current
time, with an empty reading log of capacity 4; the count grows by one. -/
theorem add_sensor_appends (st : SystemState) (hok : array_ok st) (id : Int)
    (h : ¬ present st id) (now : Int) (loc : List Nat) :
    (add_sensor now true true true id loc st).1 = 0 ∧
    (∃ new_sensor : TrafficSensor,
      entries (add_sensor now true true true id loc st).2 = entries st ++ [new_sensor] ∧
      new_sensor.sensor_id = id ∧
      new_sensor.current_status = 0 ∧
      new_sensor.is_active = true ∧
      new_sensor.last_updated = now ∧
      readings new_sensor = [] ∧
      new_sensor.readings_count = 0 ∧
      new_sensor.readings_capacity = 4) ∧
    (add_sensor now true true true id loc st).2.sensor_count = st.sensor_count + 1 ∧
    (entries (add_sensor now true true true id loc st).2).length =
      (entries st).length + 1 := by
  obtain ⟨h1, h2, h3, _⟩ := add_sensor_of_absent hok h now loc
  refine ⟨h1, ⟨init_sensor now id loc, h2, rfl, rfl, rfl, rfl, rfl, rfl, rfl⟩, h3, ?_⟩
  rw [h2]; simp

/-! ## `add_sensor_reading` -/

theorem take_succ_set {α : Type} (l : List α) (n : Nat) (v : α) (h : n < l.length) :
    (l.set n v).take (n + 1) = l.take n ++ [v] := by
  rw [List.set_take, List.set_eq_take_append_cons_drop]
  have hlen : n < (l.take (n + 1)).length := by simp; omega
  simp only [hlen, if_true]
  rw [List.take_take, Nat.min_eq_left (Nat.le_succ n)]
  have : (l.take (n + 1)).drop (n + 1) = [] := by
    apply List.drop_eq_nil_of_le
    simp
  rw [this]

theorem realloc_readings_length (buf fresh : List CFloat) (n : Nat) :
    (realloc_readings buf n fresh).length = n := by
  simp [realloc_readings]
  omega

theorem realloc_readings_take (buf fresh : List CFloat) (n k : Nat)
    (hk : k ≤ buf.length) (hn : k ≤ n) :
    (realloc_readings buf n fresh).take k = buf.take k := by
  unfold realloc_readings
  rw [List.take_take, Nat.min_eq_left hn, List.append_assoc, List.take_append_of_le_length hk]

theorem entries_before_store (st : SystemState) (k : Nat) (s1 : TrafficSensor) :
    entries_before (store st k s1) k = entries_before st k := by
  unfold entries_before store
  simp only
  rw [List.set_take]
  congr 1
  apply List.set_eq_of_length_le
  simp

theorem entries_after_store (st : SystemState) (k : Nat) (s1 : TrafficSensor) :
    entries_after (store st k s1) k = entries_after st k := by
  unfold entries_after store
  simp only
  rw [List.set_take, List.drop_set_of_lt _ _ (Nat.lt_succ_self k)]

/-- A rejected value: the call returns -1 after `handle_buffer_overflow` has
run on the sensor found. -/
theorem add_sensor_reading_of_invalid {st : SystemState} {id : Int} {k : Nat}
    {s : TrafficSensor} (hf : find_sensor st id = some (k, s)) {value : CFloat}
    (hv : validate_sensor_data value ≠ 0) (now : Int) (r : Option (List CFloat)) :
    add_sensor_reading now r id value st =
      (-1, store st k (handle_buffer_overflow now s)) := by
  unfold add_sensor_reading
  simp only [hf]
  rw [if_pos hv]

/-- An accepted value with a successful (or unneeded) reallocation: the call
returns 0 and the sensor found has the value appended to its readings. -/
theorem add_sensor_reading_of_valid {st : SystemState} {id : Int} {k : Nat}
    {s : TrafficSensor} (hf : find_sensor st id = some (k, s)) (hs : sensor_ok s)
    {value : CFloat} (hv : validate_sensor_data value = 0) (now : Int) (fresh : List CFloat) :
    ∃ s1 : TrafficSensor,
      add_sensor_reading now (some fresh) id value st = (0, store st k s1) ∧
      readings s1 = readings s ++ [value] ∧
      sensor_ok s1 ∧
      s1.sensor_id = s.sensor_id ∧ s1.location = s.location ∧
      s1.current_status = s.current_status ∧ s1.is_active = s.is_active ∧
      s1.last_updated = now ∧
      s1.readings_capacity =
        (if s.readings_count = s.readings_capacity then 2 * s.readings_capacity
         else s.readings_capacity) := by
  obtain ⟨hlen, hle, hpos⟩ := hs
  unfold add_sensor_reading
  simp only [hf]
  rw [if_neg (by simp [hv])]
  by_cases hfull : s.readings_count ≥ s.readings_capacity
  · have hcount : s.readings_count = s.readings_capacity := le_antisymm hle hfull
    simp only [hfull, if_true]
    refine ⟨_, rfl, ?_, ?_, rfl, rfl, rfl, rfl, rfl, ?_⟩
    · unfold readings
      simp only
      rw [take_succ_set _ _ _ (by rw [realloc_readings_length]; omega),
        realloc_readings_take _ _ _ _ (by omega) (by omega)]
    · unfold sensor_ok
      simp only [List.length_set, realloc_readings_length]
      refine ⟨trivial, ?_, ?_⟩ <;> omega
    · simp only [hcount, if_true]; omega
  · simp only [hfull, if_false]
    refine ⟨_, rfl, ?_, ?_, rfl, rfl, rfl, rfl, rfl, ?_⟩
    · unfold readings
      simp only
      rw [take_succ_set _ _ _ (by omega)]
    · unfold sensor_ok
      simp only [List.length_set]
      omega
    · have : ¬ s.readings_count = s.readings_capacity := by omega
      simp only [this, if_false]

/-- Repeated appends of accepted values to the sensor found under `id`. -/
theorem append_readings_of_valid (id : Int) :
    ∀ (steps : List (Int × Option (List CFloat) × CFloat)) (st : SystemState) (k : Nat)
      (s : TrafficSensor),
      find_sensor st id = some (k, s) → sensor_ok s →
      (∀ x ∈ steps, x.2.1 ≠ none ∧ validate_sensor_data x.2.2 = 0) →
      ∃ (st1 : SystemState) (s1 : TrafficSensor),
        append_readings id steps st = some st1 ∧
        find_sensor st1 id = some (k, s1) ∧
        sensor_ok s1 ∧
        readings s1 = readings s ++ steps.map (fun x => x.2.2) ∧
        entries st1 = entries_before st k ++ s1 :: entries_after st k := by
  intro steps
  induction steps with
  | nil =>
    intro st k s hf hs _
    exact ⟨st, s, rfl, hf, hs, by simp, (find_sensor_split hf).1⟩
  | cons x rest ih =>
    intro st k s hf hs hall
    obtain ⟨now, r, value⟩ := x
    have hx := hall (now, r, value) (List.mem_cons_self _ _)
    simp only [ne_eq] at hx
    obtain ⟨fresh, hr⟩ := Option.ne_none_iff_exists'.mp hx.1
    subst hr
    obtain ⟨s1, h1, h2, h3, h4, _⟩ := add_sensor_reading_of_valid hf hs hx.2 now fresh
    have hid : s1.sensor_id = id := by rw [h4]; exact (find_sensor_split hf).2.1
    have hf1 : find_sensor (store st k s1) id = some (k, s1) := find_sensor_store hf hid
    obtain ⟨st2, s2, g1, g2, g3, g4, g5⟩ :=
      ih (store st k s1) k s1 hf1 h3 (fun y hy => hall y (List.mem_cons_of_mem _ hy))
    refine ⟨st2, s2, ?_, g2, g3, ?_, ?_⟩
    · simp only [append_readings, h1, if_true]
      exact g1
    · rw [g4, h2]; simp
    · rw [g5, entries_before_store, entries_after_store]

theorem validate_sensor_data_of_in_band (value : CFloat) (h : in_band value) :
    validate_sensor_data value = 0 := by
  by_cases hn : value = CFloat.nan
  · subst hn
    exact absurd h (by decide)
  · exact (validate_sensor_data_of_ne_nan value hn).mpr h

theorem append_singleton_split {α : Type} (p : α → Prop) :
    ∀ (l b c : List α) (a s : α), l ++ [a] = b ++ s :: c → (∀ x ∈ l, ¬ p x) → p s →
      (∀ x ∈ b, ¬ p x) → b = l ∧ s = a ∧ c = [] := by
  intro l
  induction l with
  | nil =>
    intro b c a s h _ _ _
    cases b with
    | nil =>
      simp only [List.nil_append, List.cons.injEq] at h
      exact ⟨rfl, h.1.symm, h.2.symm⟩
    | cons x b1 =>
      simp only [List.nil_append, List.cons_append, List.cons.injEq] at h
      have := h.2
      cases b1 <;> simp at this
  | cons y l1 ih =>
    intro b c a s h hl hs hb
    cases b with
    | nil =>
      simp only [List.cons_append, List.nil_append, List.cons.injEq] at h
      exact absurd (h.1 ▸ hs) (hl y (List.mem_cons_self _ _))
    | cons x b1 =>
      simp only [List.cons_append, List.cons.injEq] at h
      obtain ⟨g1, g2, g3⟩ := ih b1 c a s h.2 (fun z hz => hl z (List.mem_cons_of_mem _ hz)) hs
        (fun z hz => hb z (List.mem_cons_of_mem _ hz))
      exact ⟨by rw [h.1, g1], g2, g3⟩

theorem init_sensor_ok (now : Int) (id : Int) (loc : List Nat) :
    sensor_ok (init_sensor now id loc) := by
  simp [sensor_ok, init_sensor]

/-- After a successful `add_sensor` of a new id, a lookup of the id returns
the new sensor, which is the last entry. -/
theorem find_sensor_after_add {st : SystemState} {id : Int} (hok : array_ok st)
    (h : ¬ present st id) (now : Int) (loc : List Nat) :
    ∃ k, find_sensor (add_sensor now true true true id loc st).2 id =
        some (k, init_sensor now id loc) ∧
      entries_before (add_sensor now true true true id loc st).2 k = entries st ∧
      entries_after (add_sensor now true true true id loc st).2 k = [] := by
  obtain ⟨_, h2, _, _⟩ := add_sensor_of_absent hok h now loc
  have hp : present (add_sensor now true true true id loc st).2 id :=
    ⟨init_sensor now id loc, by rw [h2]; simp, rfl⟩
  have hsome := find_sensor_isSome_iff.mpr hp
  obtain ⟨⟨k, s⟩, hks⟩ := Option.isSome_iff_exists.mp hsome
  obtain ⟨g1, g2, g3, _⟩ := find_sensor_split hks
  rw [h2] at g1
  have habs : ∀ x ∈ entries st, ¬ x.sensor_id = id := fun x hx hxid => h ⟨x, hx, hxid⟩
  obtain ⟨e1, e2, e3⟩ :=
    append_singleton_split (fun x => x.sensor_id = id) _ _ _ _ _ g1 habs g2 g3
  exact ⟨k, by rw [hks, e2], e1, e3⟩

/-- C4: for a sensor found under `id` with a consistent buffer and a value the
validator accepts (in particular every value in `[0, 1000]`), a call of
`add_sensor_reading` whose reallocation succeeds returns 0, appends the value
to the readings of that sensor (also when the buffer is full and doubles),
stamps it with the current time and changes no other sensor.  Hence N such
calls on a newly added sensor return 0 each and leave a log of exactly the N
values in arrival order. -/
theorem add_sensor_reading_appends :
    (∀ (st : SystemState) (id : Int) (k : Nat) (s : TrafficSensor) (value : CFloat)
        (now : Int) (fresh : List CFloat),
      find_sensor st id = some (k, s) → sensor_ok s → validate_sensor_data value = 0 →
      (add_sensor_reading now (some fresh) id value st).1 = 0 ∧
      ∃ (pre post : List TrafficSensor) (s1 : TrafficSensor),
        entries st = pre ++ s :: post ∧
        entries (add_sensor_reading now (some fresh) id value st).2 = pre ++ s1 :: post ∧
        readings s1 = readings s ++ [value] ∧
        s1.readings_capacity =
          (if s.readings_count = s.readings_capacity then 2 * s.readings_capacity
           else s.readings_capacity) ∧
        s1.sensor_id = s.sensor_id ∧ s1.location = s.location ∧
        s1.current_status = s.current_status ∧ s1.is_active = s.is_active ∧
        s1.last_updated = now) ∧
    (∀ (st : SystemState) (id : Int) (now : Int) (loc : List Nat)
        (steps : List (Int × Option (List CFloat) × CFloat)),
      array_ok st → ¬ present st id →
      (∀ x ∈ steps, x.2.1 ≠ none ∧ validate_sensor_data x.2.2 = 0) →
      ∃ (st1 : SystemState) (s1 : TrafficSensor),
        append_readings id steps (add_sensor now true true true id loc st).2 = some st1 ∧
        entries st1 = entries st ++ [s1] ∧
        s1.sensor_id = id ∧
        readings s1 = steps.map (fun x => x.2.2)) := by
  constructor
  · intro st id k s value now fresh hf hs hv
    obtain ⟨s1, h1, h2, _, h4, h5, h6, h7, h8, h9⟩ :=
      add_sensor_reading_of_valid hf hs hv now fresh
    obtain ⟨g1, _, _, g4⟩ := find_sensor_split hf
    rw [h1]
    exact ⟨rfl, entries_before st k, entries_after st k, s1, g1, g4 s1, h2, h9, h4, h5, h6,
      h7, h8⟩
  · intro st id now loc steps hok habs hall
    obtain ⟨k, hk, hb, ha⟩ := find_sensor_after_add hok habs now loc
    obtain ⟨st1, s1, g1, g2, _, g4, g5⟩ :=
      append_readings_of_valid id steps _ k _ hk (init_sensor_ok now id loc) hall
    refine ⟨st1, s1, g1, ?_, (find_sensor_split g2).2.1, ?_⟩
    · rw [g5, hb, ha]
    · rw [g4]; simp [readings, init_sensor]

/-- The reset path: for a sensor found under `id` and a value below 0 or above
1000, `add_sensor_reading` returns -1; afterwards that sensor has reading count 0
(an empty log), the same capacity, the current time as `last_updated`, and its
`is_active`, id, location and status as before; no other sensor changes. -/
theorem add_sensor_reading_corrupt_resets (st : SystemState) (id : Int) (k : Nat)
    (s : TrafficSensor) (value : CFloat) (now : Int) (r : Option (List CFloat))
    (hf : find_sensor st id = some (k, s)) (hv : out_of_band value) :
    (add_sensor_reading now r id value st).1 = -1 ∧
    ∃ (pre post : List TrafficSensor) (s1 : TrafficSensor),
      entries st = pre ++ s :: post ∧
      entries (add_sensor_reading now r id value st).2 = pre ++ s1 :: post ∧
      s1.readings_count = 0 ∧
      readings s1 = [] ∧
      s1.readings_capacity = s.readings_capacity ∧
      s1.last_updated = now ∧
      s1.is_active = s.is_active ∧
      s1.sensor_id = s.sensor_id ∧ s1.location = s.location ∧
      s1.current_status = s.current_status ∧
      (add_sensor_reading now r id value st).2.sensor_count = st.sensor_count := by
  have hne : validate_sensor_data value ≠ 0 := by
    rw [validate_sensor_data_of_out_of_band value hv]; decide
  rw [add_sensor_reading_of_invalid hf hne now r]
  obtain ⟨g1, _, _, g4⟩ := find_sensor_split hf
  refine ⟨rfl, entries_before st k, entries_after st k, handle_buffer_overflow now s, g1,
    g4 _, rfl, ?_, rfl, rfl, rfl, rfl, rfl, rfl, rfl⟩
  simp [readings, handle_buffer_overflow]

/-! ## `garbage_collect` -/

theorem slot_append_length (pre rest : List (Option TrafficSensor)) (o : Option TrafficSensor) :
    slot (pre ++ o :: rest) pre.length = o := by
  unfold slot
  rw [List.getD_append_right _ _ _ _ (le_refl _)]
  simp

theorem slot_of_length_le {l : List (Option TrafficSensor)} {i : Nat} (h : l.length ≤ i) :
    slot l i = none := by
  unfold slot
  simp [List.getD_eq_getElem?_getD, List.getElem?_eq_none h]

theorem garbage_collect_loop_out_of_range (now threshold : Int) :
    ∀ (n i : Nat) (a : List (Option TrafficSensor)) (c : Int), a.length ≤ i →
      garbage_collect_loop now threshold n i a c = (c, a) := by
  intro n
  induction n with
  | zero => intro i a c _; rfl
  | succ n ih =>
    intro i a c h
    simp only [garbage_collect_loop, slot_of_length_le h]
    exact ih (i + 1) a c (by omega)

/-- The loop of `garbage_collect` passes over the next `n` slots, demoting the
sensors in them, and leaves the other slots alone. -/
theorem garbage_collect_loop_eq (now threshold : Int) :
    ∀ (n : Nat) (pre rest : List (Option TrafficSensor)) (c : Int),
      garbage_collect_loop now threshold n pre.length (pre ++ rest) c =
        (count_slots threshold now (rest.take n) c,
          pre ++ (rest.take n).map (Option.map (demote threshold now)) ++ rest.drop n) := by
  intro n
  induction n with
  | zero => intro pre rest c; simp [garbage_collect_loop, count_slots]
  | succ n ih =>
    intro pre rest c
    cases rest with
    | nil =>
      rw [garbage_collect_loop_out_of_range now threshold _ _ _ _ (by simp)]
      simp [count_slots]
    | cons o rest1 =>
      simp only [garbage_collect_loop, slot_append_length]
      cases o with
      | none =>
        have h := ih (pre ++ [none]) rest1 c
        simp only [List.length_append, List.length_singleton, List.append_assoc,
          List.singleton_append] at h
        simp only [h, List.take_succ_cons, count_slots, List.map_cons, Option.map_none',
          List.drop_succ_cons, List.append_assoc, List.cons_append]
      | some s =>
        by_cases hs : now - s.last_updated > threshold
        · simp only [hs, if_true]
          have hset : (pre ++ some s :: rest1).set pre.length
              (some { s with is_active := false }) =
              pre ++ some { s with is_active := false } :: rest1 := by
            rw [List.set_append_right _ _ (le_refl _)]
            simp
          have h := ih (pre ++ [some { s with is_active := false }]) rest1 (int_wrap (c + 1))
          simp only [List.length_append, List.length_singleton, List.append_assoc,
            List.singleton_append] at h
          rw [hset, h]
          simp only [List.take_succ_cons, count_slots, hs, if_true, List.map_cons,
            Option.map_some', demote, List.drop_succ_cons, List.append_assoc, List.cons_append]
        · simp only [hs, if_false]
          have h := ih (pre ++ [some s]) rest1 c
          simp only [List.length_append, List.length_singleton, List.append_assoc,
            List.singleton_append] at h
          simp only [h, List.take_succ_cons, count_slots, hs, if_false, List.map_cons,
            Option.map_some', demote, List.drop_succ_cons, List.append_assoc, List.cons_append]

theorem garbage_collect_with_eq (threshold now : Int) (st : SystemState) :
    garbage_collect_with threshold now st =
      (count_slots threshold now (st.sensors.take st.sensor_count) 0,
        { st with sensors :=
            (st.sensors.take st.sensor_count).map (Option.map (demote threshold now)) ++
              st.sensors.drop st.sensor_count }) := by
  unfold garbage_collect_with
  have h := garbage_collect_loop_eq now threshold st.sensor_count [] st.sensors 0
  simp only [List.length_nil, List.nil_append] at h
  simp only [h]

theorem filterMap_id_map (f : TrafficSensor → TrafficSensor) :
    ∀ l : List (Option TrafficSensor),
      (l.map (Option.map f)).filterMap id = (l.filterMap id).map f := by
  intro l
  induction l with
  | nil => rfl
  | cons o rest ih =>
    cases o with
    | none => simpa using ih
    | some s => simpa using ih

theorem take_map_take_append {α : Type} (g : α → α) (l : List α) (n : Nat) :
    ((l.take n).map g ++ l.drop n).take n = (l.take n).map g := by
  rw [List.take_append_eq_append_take, List.take_of_length_le (by simp)]
  by_cases h : n ≤ l.length
  · simp [Nat.min_eq_left h]
  · rw [List.drop_eq_nil_of_le (by omega)]
    simp

/-- The entries after a sweep are the entries before it, each demoted if stale. -/
theorem entries_garbage_collect_with (threshold now : Int) (st : SystemState) :
    entries (garbage_collect_with threshold now st).2 =
      (entries st).map (demote threshold now) := by
  rw [garbage_collect_with_eq]
  unfold entries
  simp only
  rw [take_map_take_append, filterMap_id_map]

theorem drop_map_take_append {α : Type} (g : α → α) (l : List α) (n : Nat) :
    ((l.take n).map g ++ l.drop n).drop n = l.drop n := by
  by_cases h : n ≤ l.length
  · rw [List.drop_append_of_le_length (by simp [Nat.min_eq_left h])]
    rw [List.drop_of_length_le (by simp)]
    simp
  · rw [List.drop_eq_nil_of_le (by omega : l.length ≤ n)]
    simp

theorem demote_demote (threshold now : Int) (s : TrafficSensor) :
    demote threshold now (demote threshold now s) = demote threshold now s := by
  unfold demote
  by_cases h : now - s.last_updated > threshold <;> simp [h]

theorem demote_last_updated (threshold now : Int) (s : TrafficSensor) :
    (demote threshold now s).last_updated = s.last_updated := by
  unfold demote
  by_cases h : now - s.last_updated > threshold <;> simp [h]

theorem count_slots_map_demote (threshold now : Int) :
    ∀ (l : List (Option TrafficSensor)) (c : Int),
      count_slots threshold now (l.map (Option.map (demote threshold now))) c =
        count_slots threshold now l c := by
  intro l
  induction l with
  | nil => intro c; rfl
  | cons o rest ih =>
    intro c
    cases o with
    | none => simpa [count_slots] using ih c
    | some s =>
      simp only [List.map_cons, Option.map_some', count_slots, demote_last_updated, ih]

theorem demoted_count_self (l : List TrafficSensor) : demoted_count l l = 0 := by
  unfold demoted_count
  induction l with
  | nil => rfl
  | cons s rest ih =>
    simp only [List.zip_cons_cons, List.filter_cons]
    cases s.is_active <;> simpa using ih

theorem int_wrap_succ (c : Int) (h0 : 0 ≤ c) (h1 : c + 1 < 2 ^ 31) : int_wrap (c + 1) = c + 1 := by
  unfold int_wrap
  norm_num at h1 ⊢
  omega

theorem count_slots_eq (threshold now : Int) :
    ∀ (l : List (Option TrafficSensor)) (c : Int), 0 ≤ c → c + l.length < 2 ^ 31 →
      count_slots threshold now l c =
        c + ((l.filterMap id).filter (stale threshold now)).length := by
  intro l
  induction l with
  | nil => intro c _ _; simp [count_slots]
  | cons o rest ih =>
    intro c h0 h1
    simp only [List.length_cons, Nat.cast_add, Nat.cast_one] at h1
    cases o with
    | none =>
      simp only [count_slots, List.filterMap_cons, id_eq]
      exact ih c h0 (by omega)
    | some s =>
      simp only [count_slots, List.filterMap_cons, id_eq, List.filter_cons, stale]
      by_cases hs : now - s.last_updated > threshold
      · simp only [hs, if_true, decide_True, List.length_cons, Nat.cast_add, Nat.cast_one]
        rw [int_wrap_succ c h0 (by omega), ih (c + 1) (by omega) (by omega)]
        omega
      · simp only [hs, if_false, decide_False]
        rw [ih c h0 (by omega)]
        simp [stale]

theorem demoted_count_map_demote (threshold now : Int) (l : List TrafficSensor) :
    demoted_count l (l.map (demote threshold now)) =
      (l.filter (fun s => s.is_active && stale threshold now s)).length := by
  unfold demoted_count
  induction l with
  | nil => rfl
  | cons s rest ih =>
    simp only [List.map_cons, List.zip_cons_cons, List.filter_cons, demote, stale]
    by_cases hs : now - s.last_updated > threshold <;> cases ha : s.is_active <;>
      simp [hs, ha] <;> simpa [demote, stale] using ih

theorem filter_active_stale_of_all_active (threshold now : Int) (l : List TrafficSensor)
    (h : ∀ s ∈ l, stale threshold now s = true → s.is_active = true) :
    l.filter (fun s => s.is_active && stale threshold now s) =
      l.filter (stale threshold now) := by
  apply List.filter_congr
  intro s hs
  cases hst : stale threshold now s
  · simp
  · simp [h s hs hst]

/-- C7: a sweep with any threshold (`garbage_collect` is the sweep with
threshold 3600) leaves the entries in place, in the same order and number;
a sensor whose last update is more than the threshold old is inactive
afterwards, every other sensor keeps its `is_active`, and the id, location,
status, `last_updated` and readings of every sensor stay as they were. -/
theorem garbage_collect_marks_stale (threshold now : Int) (st : SystemState) :
    List.Forall₂
      (fun s s1 =>
        (now - s.last_updated > threshold → s1.is_active = false) ∧
        (now - s.last_updated ≤ threshold → s1.is_active = s.is_active) ∧
        s1.sensor_id = s.sensor_id ∧ s1.location = s.location ∧
        s1.current_status = s.current_status ∧ s1.last_updated = s.last_updated ∧
        s1.sensor_readings = s.sensor_readings ∧ s1.readings_count = s.readings_count ∧
        s1.readings_capacity = s.readings_capacity ∧ readings s1 = readings s)
      (entries st) (entries (garbage_collect_with threshold now st).2) ∧
    (entries (garbage_collect_with threshold now st).2).length = (entries st).length ∧
    (garbage_collect_with threshold now st).2.sensor_count = st.sensor_count ∧
    (garbage_collect_with threshold now st).2.sensor_capacity = st.sensor_capacity ∧
    garbage_collect now st = garbage_collect_with 3600 now st := by
  refine ⟨?_, ?_, rfl, rfl, rfl⟩
  · rw [entries_garbage_collect_with, List.forall₂_map_right_iff, List.forall₂_same]
    intro s _
    unfold demote
    by_cases h : now - s.last_updated > threshold
    · rw [if_pos h]
      exact ⟨fun _ => rfl, fun hh => absurd h (not_lt.mpr hh), rfl, rfl, rfl, rfl, rfl, rfl,
        rfl, rfl⟩
    · rw [if_neg h]
      exact ⟨fun hh => absurd hh h, fun _ => rfl, rfl, rfl, rfl, rfl, rfl, rfl, rfl, rfl⟩
  · rw [entries_garbage_collect_with, List.length_map]

/-- C8, counterexample: a sensor added at time 0 is stale at time 4000; the
second of two sweeps at time 4000 counts it again and reports 1, not 0. -/
theorem second_collect_count_not_zero :
    (garbage_collect 4000
      (garbage_collect 4000 (add_sensor 0 true true true 1 [] initial).2).2).1 = 1 ∧
    (garbage_collect 4000
      (garbage_collect 4000 (add_sensor 0 true true true 1 [] initial).2).2).1 ≠ 0 := by
  decide

/-- C8, amended: the second of two sweeps in immediate succession changes
nothing (it demotes no sensor and leaves the state as the first sweep left
it), and the count it computes is the count of the first sweep, since stale
sensors that are already inactive are counted again. -/
theorem second_collect_changes_nothing (now : Int) (st : SystemState) :
    (garbage_collect now (garbage_collect now st).2).2 = (garbage_collect now st).2 ∧
    demoted_count (entries (garbage_collect now st).2)
      (entries (garbage_collect now (garbage_collect now st).2).2) = 0 ∧
    (garbage_collect now (garbage_collect now st).2).1 = (garbage_collect now st).1 := by
  have hstate : (garbage_collect now (garbage_collect now st).2).2 =
      (garbage_collect now st).2 := by
    unfold garbage_collect
    rw [garbage_collect_with_eq STALE_THRESHOLD now st, garbage_collect_with_eq]
    simp only [take_map_take_append, drop_map_take_append, List.map_map]
    congr 2
    apply List.map_congr_left
    intro o _
    cases o with
    | none => rfl
    | some s => simp [demote_demote]
  refine ⟨hstate, ?_, ?_⟩
  · rw [hstate, demoted_count_self]
  · unfold garbage_collect
    rw [garbage_collect_with_eq STALE_THRESHOLD now st, garbage_collect_with_eq]
    simp only [take_map_take_append, count_slots_map_demote]

/-- C9, counterexample: sensor 1 is added at time 0 and demoted by a sweep at
time 4000, sensor 2 is added at time 4000; the sweep at time 8000 computes the
count 2, while it demotes one sensor only (sensor 1 was inactive already). -/
theorem collect_count_exceeds_demoted :
    (garbage_collect 8000
      (run [Op.add 0 true true true 1 [], Op.collect 4000, Op.add 4000 true true true 2 []]
        initial)).1 = 2 ∧
    demoted_count
      (entries (run [Op.add 0 true true true 1 [], Op.collect 4000,
        Op.add 4000 true true true 2 []] initial))
      (entries (garbage_collect 8000
        (run [Op.add 0 true true true 1 [], Op.collect 4000,
          Op.add 4000 true true true 2 []] initial)).2) = 1 := by
  decide

/-- C9, amended: with fewer than 2^31 sensors, the count `garbage_collect`
computes is the number of sensors whose last update is more than 3600 old at
the call, active or not; it is the number of sensors demoted in the call when
each of those sensors was active before the call. -/
theorem garbage_collect_count (now : Int) (st : SystemState)
    (hsize : st.sensor_count < 2 ^ 31) :
    (garbage_collect now st).1 =
      ((entries st).filter (stale STALE_THRESHOLD now)).length ∧
    ((∀ s ∈ entries st, stale STALE_THRESHOLD now s = true → s.is_active = true) →
      (garbage_collect now st).1 =
        demoted_count (entries st) (entries (garbage_collect now st).2)) := by
  have hlen : (0 : Int) + ((st.sensors.take st.sensor_count).length : Int) < 2 ^ 31 := by
    have h1 : (st.sensors.take st.sensor_count).length ≤ st.sensor_count := by simp
    have h2 : ((st.sensors.take st.sensor_count).length : Int) < 2 ^ 31 := by
      have : (st.sensors.take st.sensor_count).length < 2 ^ 31 := lt_of_le_of_lt h1 hsize
      exact_mod_cast this
    omega
  have hcount : (garbage_collect now st).1 =
      ((entries st).filter (stale STALE_THRESHOLD now)).length := by
    unfold garbage_collect
    rw [garbage_collect_with_eq]
    simp only
    rw [count_slots_eq STALE_THRESHOLD now _ 0 (le_refl _) hlen]
    simp [entries]
  refine ⟨hcount, ?_⟩
  intro hact
  rw [hcount]
  unfold garbage_collect
  rw [entries_garbage_collect_with, demoted_count_map_demote,
    filter_active_stale_of_all_active _ _ _ hact]

/-! ## `remove_sensor` -/

/-- The shifting loop of `remove_sensor` moves the next `n` pointers down by
one slot, overwriting the slot at `j`. -/
theorem shift_loop_eq :
    ∀ (n : Nat) (pre rest : List (Option TrafficSensor)) (x : Option TrafficSensor),
      n ≤ rest.length →
      shift_loop n pre.length (pre ++ x :: rest) = pre ++ rest.take n ++ (x :: rest).drop n := by
  intro n
  induction n with
  | zero => intro pre rest x _; simp [shift_loop]
  | succ n ih =>
    intro pre rest x h
    cases rest with
    | nil => simp at h
    | cons y rest1 =>
      simp only [List.length_cons, Nat.add_le_add_iff_right] at h
      have hslot : slot (pre ++ x :: y :: rest1) (pre.length + 1) = y := by
        have := slot_append_length (pre ++ [x]) rest1 y
        simpa using this
      have hset : (pre ++ x :: y :: rest1).set pre.length y = pre ++ y :: y :: rest1 := by
        rw [List.set_append_right _ _ (le_refl _)]
        simp
      have h1 := ih (pre ++ [y]) rest1 y h
      simp only [List.length_append, List.length_singleton, List.append_assoc,
        List.singleton_append] at h1
      simp only [shift_loop, hslot, hset, h1, List.take_succ_cons, List.drop_succ_cons,
        List.cons_append, List.append_assoc]

theorem shift_loop_length :
    ∀ (n j : Nat) (a : List (Option TrafficSensor)), (shift_loop n j a).length = a.length := by
  intro n
  induction n with
  | zero => intro j a; rfl
  | succ n ih => intro j a; simp [shift_loop, ih]

/-- The outer loop of `remove_sensor` searches as `find_sensor` does and, at
the first match, shifts the later pointers down. -/
theorem remove_sensor_loop_eq (st : SystemState) (id : Int) :
    ∀ (n i : Nat), remove_sensor_loop st id n i =
      match find_sensor_loop st.sensors id n i with
      | none => (-1, st)
      | some (k, _) =>
        (0, { st with
          sensors := shift_loop (st.sensor_count - 1 - k) k st.sensors
          sensor_count := st.sensor_count - 1 }) := by
  intro n
  induction n with
  | zero => intro i; rfl
  | succ n ih =>
    intro i
    simp only [remove_sensor_loop, find_sensor_loop]
    cases hs : slot st.sensors i with
    | none => simp only [ih]
    | some s =>
      by_cases hid : s.sensor_id = id
      · simp only [hid, if_true]
      · simp only [hid, if_false, ih]

theorem remove_sensor_of_absent {st : SystemState} {id : Int} (h : ¬ present st id) :
    remove_sensor id st = (-1, st) := by
  have hf : find_sensor st id = none := by
    rw [find_sensor_none_iff]
    exact fun s hs hid => h ⟨s, hs, hid⟩
  unfold remove_sensor
  unfold find_sensor at hf
  rw [remove_sensor_loop_eq, hf]

theorem remove_sensor_of_found {st : SystemState} {id : Int} {k : Nat} {s : TrafficSensor}
    (hok : array_ok st) (hf : find_sensor st id = some (k, s)) :
    (remove_sensor id st).1 = 0 ∧
    entries (remove_sensor id st).2 = entries_before st k ++ entries_after st k ∧
    (remove_sensor id st).2.sensor_count + 1 = st.sensor_count ∧
    (remove_sensor id st).2.sensor_capacity = st.sensor_capacity ∧
    array_ok (remove_sensor id st).2 := by
  obtain ⟨hk, hslot, _, _⟩ := find_sensor_some_iff.mp hf
  obtain ⟨hlen, hle⟩ := hok
  have hkl : k < st.sensors.length := slot_eq_some_lt hslot
  have hres : remove_sensor id st =
      (0, { st with
        sensors := shift_loop (st.sensor_count - 1 - k) k st.sensors
        sensor_count := st.sensor_count - 1 }) := by
    unfold remove_sensor
    unfold find_sensor at hf
    rw [remove_sensor_loop_eq, hf]
  have hsplit : st.sensors = st.sensors.take k ++ some s :: st.sensors.drop (k + 1) := by
    have h1 : st.sensors = st.sensors.take k ++ st.sensors.drop k :=
      (List.take_append_drop k _).symm
    have h2 : st.sensors.drop k = st.sensors[k] :: st.sensors.drop (k + 1) :=
      List.drop_eq_getElem_cons hkl
    have h3 : st.sensors[k] = some s := by
      have := slot_eq_some_iff.mp hslot
      rw [List.getElem?_eq_getElem hkl] at this
      exact Option.some.inj this
    rw [h2, h3] at h1
    exact h1
  have hprelen : (st.sensors.take k).length = k := by simp; omega
  have hshift : shift_loop (st.sensor_count - 1 - k) k st.sensors =
      st.sensors.take k ++ (st.sensors.drop (k + 1)).take (st.sensor_count - 1 - k) ++
        (some s :: st.sensors.drop (k + 1)).drop (st.sensor_count - 1 - k) := by
    have := shift_loop_eq (st.sensor_count - 1 - k) (st.sensors.take k)
      (st.sensors.drop (k + 1)) (some s) (by simp; omega)
    rw [hprelen, ← hsplit] at this
    exact this
  rw [hres]
  refine ⟨rfl, ?_, ?_, rfl, ?_⟩
  · unfold entries entries_before entries_after
    simp only
    rw [hshift, List.take_append_of_le_length (by simp; omega)]
    rw [List.take_of_length_le (by simp; omega), List.filterMap_append, List.drop_take]
    have : st.sensor_count - 1 - k = st.sensor_count - (k + 1) := by omega
    rw [this]
  · simp only; omega
  · unfold array_ok
    simp only [shift_loop_length]
    omega

/-- C10: in a consistent registry with pairwise distinct ids, `remove_sensor`
of a present id returns 0; the entries afterwards are the old entries with
the one sensor of that id deleted, the others in their order with all their
fields, so one entry fewer; afterwards `find_sensor` of the id returns
nothing and a second `remove_sensor` of it returns -1. -/
theorem remove_sensor_deletes (st : SystemState) (id : Int) (hok : array_ok st)
    (hdistinct : (ids st).Nodup) (hpresent : present st id) :
    (remove_sensor id st).1 = 0 ∧
    (∃ (pre post : List TrafficSensor) (s : TrafficSensor),
      s.sensor_id = id ∧
      entries st = pre ++ s :: post ∧
      entries (remove_sensor id st).2 = pre ++ post) ∧
    (entries (remove_sensor id st).2).length + 1 = (entries st).length ∧
    (remove_sensor id st).2.sensor_count + 1 = st.sensor_count ∧
    find_sensor (remove_sensor id st).2 id = none ∧
    (remove_sensor id (remove_sensor id st).2).1 = -1 := by
  obtain ⟨⟨k, s⟩, hf⟩ := Option.isSome_iff_exists.mp (find_sensor_isSome_iff.mpr hpresent)
  obtain ⟨h1, h2, h3, _, _⟩ := remove_sensor_of_found hok hf
  obtain ⟨g1, g2, _, _⟩ := find_sensor_split hf
  have habs : ¬ present (remove_sensor id st).2 id := by
    rintro ⟨x, hx, hxid⟩
    rw [h2] at hx
    unfold ids at hdistinct
    rw [g1] at hdistinct
    simp only [List.map_append, List.map_cons] at hdistinct
    have hnd := List.nodup_middle.mp hdistinct
    rw [List.nodup_cons] at hnd
    apply hnd.1
    rw [← List.map_append, g2, ← hxid]
    exact List.mem_map_of_mem _ hx
  refine ⟨h1, ⟨entries_before st k, entries_after st k, s, g2, g1, h2⟩, ?_, h3, ?_, ?_⟩
  · rw [h2, g1]; simp; omega
  · rw [find_sensor_none_iff]
    exact fun x hx hxid => habs ⟨x, hx, hxid⟩
  · rw [remove_sensor_of_absent habs]

/-! ## Invariants of the registry -/

theorem entries_grow (st : SystemState) (hok : array_ok st) (n : Nat)
    (hn : st.sensor_count ≤ n) :
    entries { st with sensors := realloc_sensors st.sensors n, sensor_capacity := n } =
      entries st := by
  unfold entries
  simp only
  rw [realloc_sensors_take _ _ _ (by rw [hok.1]; exact hok.2) hn]

theorem entries_push_state (st : SystemState) (v : TrafficSensor)
    (h : st.sensor_count < st.sensors.length) :
    entries { st with
      sensors := st.sensors.set st.sensor_count (some v)
      sensor_count := st.sensor_count + 1 } = entries st ++ [v] := by
  unfold entries
  simp only
  rw [entries_push _ _ _ h]

/-- Whatever the allocator does, `add_sensor` leaves the pointer array
consistent, and either leaves the entries as they were or appends the new
sensor, the latter only for an id that was absent. -/
theorem add_sensor_cases {st : SystemState} (hok : array_ok st) (now : Int)
    (realloc_ok malloc_ok calloc_ok : Bool) (id : Int) (loc : List Nat) :
    array_ok (add_sensor now realloc_ok malloc_ok calloc_ok id loc st).2 ∧
    (entries (add_sensor now realloc_ok malloc_ok calloc_ok id loc st).2 = entries st ∨
      (¬ present st id ∧
        entries (add_sensor now realloc_ok malloc_ok calloc_ok id loc st).2 =
          entries st ++ [init_sensor now id loc])) := by
  by_cases hp : present st id
  · rw [add_sensor_of_present hp]
    exact ⟨hok, Or.inl rfl⟩
  · have hf : ¬ (find_sensor st id).isSome = true := fun hh => hp (find_sensor_isSome_iff.mp hh)
    have hok1 := hok
    obtain ⟨hlen, hle⟩ := hok1
    unfold add_sensor
    rw [if_neg hf]
    by_cases hfull : st.sensor_count ≥ st.sensor_capacity
    · simp only [hfull, if_true]
      cases realloc_ok with
      | false => exact ⟨hok, Or.inl rfl⟩
      | true =>
        simp only [if_true]
        have hnew : st.sensor_count <
            (if st.sensor_capacity ≠ 0 then st.sensor_capacity * 2 else 4) := by
          by_cases hz : st.sensor_capacity = 0
          · simp [hz]; omega
          · simp [hz]; omega
        generalize (if st.sensor_capacity ≠ 0 then st.sensor_capacity * 2 else 4) = n at hnew
        have hgrow := entries_grow st hok n (le_of_lt hnew)
        cases malloc_ok with
        | false =>
          refine ⟨?_, Or.inl hgrow⟩
          exact ⟨realloc_sensors_length _ _, le_of_lt hnew⟩
        | true =>
          cases calloc_ok with
          | false =>
            refine ⟨?_, Or.inl hgrow⟩
            exact ⟨realloc_sensors_length _ _, le_of_lt hnew⟩
          | true =>
            simp only [Bool.not_true, Bool.false_eq_true, if_false]
            refine ⟨⟨?_, ?_⟩, Or.inr ⟨hp, ?_⟩⟩
            · simp [realloc_sensors_length]
            · show st.sensor_count + 1 ≤ n
              omega
            · have := entries_push_state
                { st with sensors := realloc_sensors st.sensors n, sensor_capacity := n }
                (init_sensor now id loc) (by simp only [realloc_sensors_length]; exact hnew)
              simp only at this
              rw [this, hgrow]
    · simp only [hfull, if_false]
      cases malloc_ok with
      | false => exact ⟨hok, Or.inl rfl⟩
      | true =>
        cases calloc_ok with
        | false => exact ⟨hok, Or.inl rfl⟩
        | true =>
          simp only [Bool.not_true, Bool.false_eq_true, if_false]
          refine ⟨⟨?_, ?_⟩, Or.inr ⟨hp, ?_⟩⟩
          · simp [hlen]
          · show st.sensor_count + 1 ≤ st.sensor_capacity
            omega
          · exact entries_push_state st (init_sensor now id loc) (by omega)

/-- Whatever the value and the allocator do, `add_sensor_reading` either
leaves the state as it was or writes, through the pointer found, a sensor
with the same id, location, status and `is_active`. -/
theorem add_sensor_reading_cases {st : SystemState} {id : Int} {k : Nat} {s : TrafficSensor}
    (hf : find_sensor st id = some (k, s)) (now : Int) (r : Option (List CFloat))
    (value : CFloat) :
    (add_sensor_reading now r id value st).2 = st ∨
    ∃ s1 : TrafficSensor,
      (add_sensor_reading now r id value st).2 = store st k s1 ∧
      s1.sensor_id = s.sensor_id ∧ s1.location = s.location ∧
      s1.current_status = s.current_status ∧ s1.is_active = s.is_active := by
  unfold add_sensor_reading
  simp only [hf]
  by_cases hv : validate_sensor_data value ≠ 0
  · rw [if_pos hv]
    exact Or.inr ⟨_, rfl, rfl, rfl, rfl, rfl⟩
  · rw [if_neg hv]
    by_cases hfull : s.readings_count ≥ s.readings_capacity
    · simp only [hfull, if_true]
      cases r with
      | none => exact Or.inl rfl
      | some fresh => exact Or.inr ⟨_, rfl, rfl, rfl, rfl, rfl⟩
    · simp only [hfull, if_false]
      exact Or.inr ⟨_, rfl, rfl, rfl, rfl, rfl⟩

theorem add_sensor_reading_of_absent {st : SystemState} {id : Int}
    (hf : find_sensor st id = none) (now : Int) (r : Option (List CFloat)) (value : CFloat) :
    add_sensor_reading now r id value st = (-1, st) := by
  unfold add_sensor_reading
  simp only [hf]

/-- A call of `update_sensor_status` either leaves the state as it was or
writes, through the pointer found, a sensor that differs in status and
`last_updated` only. -/
theorem update_sensor_status_cases (st : SystemState) (now : Int) (id : Int) (status : Int) :
    update_sensor_status now id status st = (-1, st) ∨
    ∃ (k : Nat) (s : TrafficSensor),
      find_sensor st id = some (k, s) ∧ 0 ≤ status ∧ status ≤ 2 ∧
      update_sensor_status now id status st =
        (0, store st k { s with current_status := status, last_updated := now }) := by
  unfold update_sensor_status
  by_cases hs : status < 0 ∨ status > 2
  · rw [if_pos hs]; exact Or.inl rfl
  · rw [if_neg hs]
    cases hf : find_sensor st id with
    | none => exact Or.inl rfl
    | some p =>
      obtain ⟨k, s⟩ := p
      exact Or.inr ⟨k, s, rfl, by omega, by omega, rfl⟩

theorem array_ok_store {st : SystemState} (hok : array_ok st) (k : Nat) (s1 : TrafficSensor) :
    array_ok (store st k s1) := by
  unfold array_ok store
  simpa using hok

theorem ids_store {st : SystemState} {id : Int} {k : Nat} {s s1 : TrafficSensor}
    (hf : find_sensor st id = some (k, s)) (hid : s1.sensor_id = s.sensor_id) :
    ids (store st k s1) = ids st := by
  obtain ⟨g1, _, _, g4⟩ := find_sensor_split hf
  unfold ids
  rw [g4 s1, g1]
  simp [hid]

theorem demote_sensor_id (threshold now : Int) (s : TrafficSensor) :
    (demote threshold now s).sensor_id = s.sensor_id := by
  unfold demote
  by_cases h : now - s.last_updated > threshold <;> simp [h]

theorem ids_garbage_collect_with (threshold now : Int) (st : SystemState) :
    ids (garbage_collect_with threshold now st).2 = ids st := by
  unfold ids
  rw [entries_garbage_collect_with, List.map_map]
  apply List.map_congr_left
  intro s _
  exact demote_sensor_id threshold now s

theorem array_ok_garbage_collect_with {st : SystemState} (hok : array_ok st)
    (threshold now : Int) : array_ok (garbage_collect_with threshold now st).2 := by
  rw [garbage_collect_with_eq]
  unfold array_ok at hok ⊢
  simp only [List.length_append, List.length_map, List.length_take, List.length_drop]
  omega

/-- One call of any operation keeps the pointer array consistent and the ids
pairwise distinct. -/
theorem step_preserves (st : SystemState) (op : Op) (hok : array_ok st)
    (hnd : (ids st).Nodup) : array_ok (step st op) ∧ (ids (step st op)).Nodup := by
  cases op with
  | add now r m c id loc =>
    obtain ⟨h1, h2⟩ := add_sensor_cases hok now r m c id loc
    refine ⟨h1, ?_⟩
    simp only [step]
    unfold ids at hnd ⊢
    rcases h2 with h2 | ⟨habs, h2⟩
    · rw [h2]; exact hnd
    · rw [h2, List.map_append, List.map_singleton]
      apply List.Nodup.append hnd (List.nodup_singleton _)
      rw [List.disjoint_singleton]
      intro hmem
      obtain ⟨x, hx, hxid⟩ := List.mem_map.mp hmem
      exact habs ⟨x, hx, hxid⟩
  | remove id =>
    simp only [step]
    by_cases hp : present st id
    · obtain ⟨⟨k, s⟩, hf⟩ := Option.isSome_iff_exists.mp (find_sensor_isSome_iff.mpr hp)
      obtain ⟨_, h2, _, _, h5⟩ := remove_sensor_of_found hok hf
      refine ⟨h5, ?_⟩
      unfold ids at hnd ⊢
      rw [h2]
      rw [(find_sensor_split hf).1] at hnd
      simp only [List.map_append, List.map_cons] at hnd ⊢
      have := List.nodup_middle.mp hnd
      exact (List.nodup_cons.mp this).2
    · rw [remove_sensor_of_absent hp]
      exact ⟨hok, hnd⟩
  | reading now r id v =>
    simp only [step]
    cases hf : find_sensor st id with
    | none =>
      rw [add_sensor_reading_of_absent hf]
      exact ⟨hok, hnd⟩
    | some p =>
      obtain ⟨k, s⟩ := p
      rcases add_sensor_reading_cases hf now r v with h | ⟨s1, h, hid, _⟩
      · rw [h]; exact ⟨hok, hnd⟩
      · rw [h]
        exact ⟨array_ok_store hok k s1, by rw [ids_store hf hid]; exact hnd⟩
  | status now id s =>
    simp only [step]
    rcases update_sensor_status_cases st now id s with h | ⟨k, t, hf, _, _, h⟩
    · rw [h]; exact ⟨hok, hnd⟩
    · rw [h]
      have e := @ids_store st id k t { t with current_status := s, last_updated := now } hf rfl
      exact ⟨array_ok_store hok k _, by
        show (ids (store st k _)).Nodup
        rw [e]; exact hnd⟩
  | collect now =>
    simp only [step, garbage_collect]
    exact ⟨array_ok_garbage_collect_with hok _ _, by rw [ids_garbage_collect_with]; exact hnd⟩

theorem run_preserves :
    ∀ (ops : List Op) (st : SystemState), array_ok st → (ids st).Nodup →
      array_ok (run ops st) ∧ (ids (run ops st)).Nodup := by
  intro ops
  induction ops with
  | nil => intro st h1 h2; exact ⟨h1, h2⟩
  | cons op rest ih =>
    intro st h1 h2
    obtain ⟨g1, g2⟩ := step_preserves st op h1 h2
    exact ih (step st op) g1 g2

/-- In every state of the program the pointer array is consistent. -/
theorem reachable_array_ok {st : SystemState} (h : Reachable st) : array_ok st := by
  obtain ⟨ops, rfl⟩ := h
  exact (run_preserves ops initial (by decide) (by decide)).1

/-- C1: after any finite sequence of calls of `add_sensor`, `remove_sensor`,
`add_sensor_reading`, `update_sensor_status` and `garbage_collect`, with any
arguments, clock values and allocator outcomes, starting from the empty
registry, the ids of the entries are pairwise distinct. -/
theorem reachable_ids_distinct (ops : List Op) :
    (ids (run ops initial)).Nodup ∧
    (entries (run ops initial)).Pairwise (fun s t => s.sensor_id ≠ t.sensor_id) := by
  have h := (run_preserves ops initial (by decide) (by decide)).2
  refine ⟨h, ?_⟩
  unfold ids at h
  exact List.pairwise_map.mp h

/-! ## The buffers of reachable states -/

theorem memset_zero_length (buf : List CFloat) (n : Nat) :
    (memset_zero buf n).length = buf.length := by
  unfold memset_zero
  simp only [List.length_append, List.length_map, List.length_take, List.length_drop]
  omega

theorem handle_buffer_overflow_ok {s : TrafficSensor} (h : sensor_ok s) (now : Int) :
    sensor_ok (handle_buffer_overflow now s) := by
  obtain ⟨h1, _, h3⟩ := h
  exact ⟨by simp [handle_buffer_overflow, memset_zero_length, h1], Nat.zero_le _, h3⟩

theorem demote_ok {s : TrafficSensor} (h : sensor_ok s) (threshold now : Int) :
    sensor_ok (demote threshold now s) := by
  unfold demote
  by_cases hs : now - s.last_updated > threshold
  · rw [if_pos hs]; exact h
  · rw [if_neg hs]; exact h

/-- Whatever the value and the allocator do, the sensor `add_sensor_reading`
writes has a consistent buffer when the sensor found had one. -/
theorem add_sensor_reading_ok {st : SystemState} {id : Int} {k : Nat} {s : TrafficSensor}
    (hf : find_sensor st id = some (k, s)) (hs : sensor_ok s) (now : Int)
    (r : Option (List CFloat)) (value : CFloat) :
    (add_sensor_reading now r id value st).2 = st ∨
    ∃ s1 : TrafficSensor,
      (add_sensor_reading now r id value st).2 = store st k s1 ∧ sensor_ok s1 := by
  by_cases hv : validate_sensor_data value = 0
  · by_cases hfull : s.readings_count ≥ s.readings_capacity
    · cases r with
      | none =>
        left
        unfold add_sensor_reading
        simp only [hf]
        rw [if_neg (by simp [hv])]
        simp only [hfull, if_true]
      | some fresh =>
        obtain ⟨s1, h1, _, h3, _⟩ := add_sensor_reading_of_valid hf hs hv now fresh
        exact Or.inr ⟨s1, by rw [h1], h3⟩
    · right
      obtain ⟨h1, h2, h3⟩ := hs
      unfold add_sensor_reading
      simp only [hf]
      rw [if_neg (by simp [hv])]
      simp only [hfull, if_false]
      refine ⟨_, rfl, ?_⟩
      unfold sensor_ok
      simp only [List.length_set]
      omega
  · rw [add_sensor_reading_of_invalid hf hv now r]
    exact Or.inr ⟨_, rfl, handle_buffer_overflow_ok hs now⟩

theorem mem_entries_of_find {st : SystemState} {id : Int} {k : Nat} {s : TrafficSensor}
    (hf : find_sensor st id = some (k, s)) : s ∈ entries st := by
  rw [(find_sensor_split hf).1]
  simp

theorem all_ok_store {st : SystemState} {id : Int} {k : Nat} {s s1 : TrafficSensor}
    (hf : find_sensor st id = some (k, s)) (hall : ∀ x ∈ entries st, sensor_ok x)
    (h1 : sensor_ok s1) : ∀ x ∈ entries (store st k s1), sensor_ok x := by
  obtain ⟨g1, _, _, g4⟩ := find_sensor_split hf
  intro x hx
  rw [g4 s1] at hx
  rw [g1] at hall
  simp only [List.mem_append, List.mem_cons] at hx hall
  rcases hx with hx | hx | hx
  · exact hall x (Or.inl hx)
  · rw [hx]; exact h1
  · exact hall x (Or.inr (Or.inr hx))

/-- One call of any operation keeps the buffer of every sensor consistent. -/
theorem step_preserves_sensor_ok (st : SystemState) (op : Op) (hok : array_ok st)
    (hall : ∀ x ∈ entries st, sensor_ok x) : ∀ x ∈ entries (step st op), sensor_ok x := by
  cases op with
  | add now r m c id loc =>
    obtain ⟨_, h2⟩ := add_sensor_cases hok now r m c id loc
    simp only [step]
    rcases h2 with h2 | ⟨_, h2⟩
    · rw [h2]; exact hall
    · rw [h2]
      intro x hx
      simp only [List.mem_append, List.mem_singleton] at hx
      rcases hx with hx | hx
      · exact hall x hx
      · rw [hx]; exact init_sensor_ok now id loc
  | remove id =>
    simp only [step]
    by_cases hp : present st id
    · obtain ⟨⟨k, s⟩, hf⟩ := Option.isSome_iff_exists.mp (find_sensor_isSome_iff.mpr hp)
      obtain ⟨_, h2, _, _, _⟩ := remove_sensor_of_found hok hf
      rw [h2]
      rw [(find_sensor_split hf).1] at hall
      intro x hx
      simp only [List.mem_append, List.mem_cons] at hx hall
      rcases hx with hx | hx
      · exact hall x (Or.inl hx)
      · exact hall x (Or.inr (Or.inr hx))
    · rw [remove_sensor_of_absent hp]
      exact hall
  | reading now r id v =>
    simp only [step]
    cases hf : find_sensor st id with
    | none =>
      rw [add_sensor_reading_of_absent hf]
      exact hall
    | some p =>
      obtain ⟨k, s⟩ := p
      rcases add_sensor_reading_ok hf (hall s (mem_entries_of_find hf)) now r v with
        h | ⟨s1, h, h1⟩
      · rw [h]; exact hall
      · rw [h]; exact all_ok_store hf hall h1
  | status now id s =>
    simp only [step]
    rcases update_sensor_status_cases st now id s with h | ⟨k, t, hf, _, _, h⟩
    · rw [h]; exact hall
    · rw [h]
      exact all_ok_store hf hall (hall t (mem_entries_of_find hf))
  | collect now =>
    simp only [step, garbage_collect]
    rw [entries_garbage_collect_with]
    intro x hx
    obtain ⟨y, hy, hxy⟩ := List.mem_map.mp hx
    rw [← hxy]
    exact demote_ok (hall y hy) _ _

/-- C2 at a sample state: sensor 2 is present in the sample registry, and
adding it again fails and changes nothing. -/
theorem add_sensor_duplicate_rejected_witness :
    present sample_registry 2 ∧
    ((add_sensor 50 true true true 2 [65] sample_registry).1 = -1 ∧
      (add_sensor 50 true true true 2 [65] sample_registry).2 = sample_registry ∧
      entries (add_sensor 50 true true true 2 [65] sample_registry).2 =
        entries sample_registry) :=
  ⟨by decide, add_sensor_duplicate_rejected sample_registry 2 (by decide) 50 true true true [65]⟩

/-- C3 at a sample state: sensor 7 is absent from the sample registry, and
adding it appends it. -/
theorem add_sensor_appends_witness :
    array_ok sample_registry ∧ ¬ present sample_registry 7 ∧
    ((add_sensor 50 true true true 7 [65] sample_registry).1 = 0 ∧
      (∃ new_sensor : TrafficSensor,
        entries (add_sensor 50 true true true 7 [65] sample_registry).2 =
          entries sample_registry ++ [new_sensor] ∧
        new_sensor.sensor_id = 7 ∧
        new_sensor.current_status = 0 ∧
        new_sensor.is_active = true ∧
        new_sensor.last_updated = 50 ∧
        readings new_sensor = [] ∧
        new_sensor.readings_count = 0 ∧
        new_sensor.readings_capacity = 4) ∧
      (add_sensor 50 true true true 7 [65] sample_registry).2.sensor_count =
        sample_registry.sensor_count + 1 ∧
      (entries (add_sensor 50 true true true 7 [65] sample_registry).2).length =
        (entries sample_registry).length + 1) :=
  ⟨by decide, by decide,
    add_sensor_appends sample_registry (by decide) 7 (by decide) 50 [65]⟩

/-- C4 at sample states: a fifth reading for the full sensor 1 is appended
(its buffer doubles), and five readings for a new sensor 9 are all logged. -/
theorem add_sensor_reading_appends_witness :
    (find_sensor sample_full_registry 1 = some (0, sample_full_sensor) ∧
      sensor_ok sample_full_sensor ∧ validate_sensor_data (CFloat.fin 45 0) = 0 ∧
      (add_sensor_reading 9 (some []) 1 (CFloat.fin 45 0) sample_full_registry).1 = 0 ∧
      ∃ (pre post : List TrafficSensor) (s1 : TrafficSensor),
        entries sample_full_registry = pre ++ sample_full_sensor :: post ∧
        entries (add_sensor_reading 9 (some []) 1 (CFloat.fin 45 0) sample_full_registry).2 =
          pre ++ s1 :: post ∧
        readings s1 = readings sample_full_sensor ++ [CFloat.fin 45 0] ∧
        s1.readings_capacity =
          (if sample_full_sensor.readings_count = sample_full_sensor.readings_capacity then
            2 * sample_full_sensor.readings_capacity
           else sample_full_sensor.readings_capacity) ∧
        s1.sensor_id = sample_full_sensor.sensor_id ∧
        s1.location = sample_full_sensor.location ∧
        s1.current_status = sample_full_sensor.current_status ∧
        s1.is_active = sample_full_sensor.is_active ∧
        s1.last_updated = 9) ∧
    (array_ok sample_registry ∧ ¬ present sample_registry 9 ∧
      ∃ (st1 : SystemState) (s1 : TrafficSensor),
        append_readings 9
          [(31, some [], CFloat.fin 1 0), (32, some [], CFloat.fin 2 0),
            (33, some [], CFloat.fin 3 0), (34, some [], CFloat.fin 4 0),
            (35, some [], CFloat.fin 5 0)]
          (add_sensor 30 true true true 9 [] sample_registry).2 = some st1 ∧
        entries st1 = entries sample_registry ++ [s1] ∧
        s1.sensor_id = 9 ∧
        readings s1 =
          [(31, some [], CFloat.fin 1 0), (32, some [], CFloat.fin 2 0),
            (33, some [], CFloat.fin 3 0), (34, some [], CFloat.fin 4 0),
            (35, some ([] : List CFloat), CFloat.fin 5 0)].map (fun x => x.2.2)) :=
  ⟨⟨by decide, by decide, by decide,
      add_sensor_reading_appends.1 sample_full_registry 1 0 sample_full_sensor (CFloat.fin 45 0)
        9 [] (by decide) (by decide) (by decide)⟩,
    ⟨by decide, by decide,
      add_sensor_reading_appends.2 sample_registry 9 30 []
        [(31, some [], CFloat.fin 1 0), (32, some [], CFloat.fin 2 0),
          (33, some [], CFloat.fin 3 0), (34, some [], CFloat.fin 4 0),
          (35, some [], CFloat.fin 5 0)]
        (by decide) (by decide) (by decide)⟩⟩

/-- The reset path at a sample state: the reading 1500 for the full sensor 1 is rejected
and empties its log. -/
theorem add_sensor_reading_corrupt_resets_witness :
    find_sensor sample_full_registry 1 = some (0, sample_full_sensor) ∧
    out_of_band (CFloat.fin 1500 0) ∧
    ((add_sensor_reading 9 none 1 (CFloat.fin 1500 0) sample_full_registry).1 = -1 ∧
      ∃ (pre post : List TrafficSensor) (s1 : TrafficSensor),
        entries sample_full_registry = pre ++ sample_full_sensor :: post ∧
        entries (add_sensor_reading 9 none 1 (CFloat.fin 1500 0) sample_full_registry).2 =
          pre ++ s1 :: post ∧
        s1.readings_count = 0 ∧
        readings s1 = [] ∧
        s1.readings_capacity = sample_full_sensor.readings_capacity ∧
        s1.last_updated = 9 ∧
        s1.is_active = sample_full_sensor.is_active ∧
        s1.sensor_id = sample_full_sensor.sensor_id ∧
        s1.location = sample_full_sensor.location ∧
        s1.current_status = sample_full_sensor.current_status ∧
        (add_sensor_reading 9 none 1 (CFloat.fin 1500 0) sample_full_registry).2.sensor_count =
          sample_full_registry.sensor_count) :=
  ⟨by decide, by decide,
    add_sensor_reading_corrupt_resets sample_full_registry 1 0 sample_full_sensor
      (CFloat.fin 1500 0) 9 none (by decide) (by decide)⟩

/-- C9 at a sample state: at time 3615 the sensors added at 0 and 10 are
stale and the one added at 20 is not. -/
theorem garbage_collect_count_witness :
    sample_registry.sensor_count < 2 ^ 31 ∧
    ((garbage_collect 3615 sample_registry).1 =
        ((entries sample_registry).filter (stale STALE_THRESHOLD 3615)).length ∧
      ((∀ s ∈ entries sample_registry, stale STALE_THRESHOLD 3615 s = true →
          s.is_active = true) →
        (garbage_collect 3615 sample_registry).1 =
          demoted_count (entries sample_registry)
            (entries (garbage_collect 3615 sample_registry).2))) :=
  ⟨by decide, garbage_collect_count 3615 sample_registry (by decide)⟩

/-- C10 at a sample state: removing the middle sensor 2 of the sample registry. -/
theorem remove_sensor_deletes_witness :
    array_ok sample_registry ∧ (ids sample_registry).Nodup ∧ present sample_registry 2 ∧
    ((remove_sensor 2 sample_registry).1 = 0 ∧
      (∃ (pre post : List TrafficSensor) (s : TrafficSensor),
        s.sensor_id = 2 ∧
        entries sample_registry = pre ++ s :: post ∧
        entries (remove_sensor 2 sample_registry).2 = pre ++ post) ∧
      (entries (remove_sensor 2 sample_registry).2).length + 1 =
        (entries sample_registry).length ∧
      (remove_sensor 2 sample_registry).2.sensor_count + 1 = sample_registry.sensor_count ∧
      find_sensor (remove_sensor 2 sample_registry).2 2 = none ∧
      (remove_sensor 2 (remove_sensor 2 sample_registry).2).1 = -1) :=
  ⟨by decide, by decide, by decide,
    remove_sensor_deletes sample_registry 2 (by decide) (by decide) (by decide)⟩

/-! ## The effect of a call on the sensors -/

/-- The outcome of `add_sensor_reading` on a sensor found, case by case. -/
theorem add_sensor_reading_result {st : SystemState} {id : Int} {k : Nat} {s : TrafficSensor}
    (hf : find_sensor st id = some (k, s)) (now : Int) (r : Option (List CFloat))
    (value : CFloat) :
    (validate_sensor_data value ≠ 0 ∧
      add_sensor_reading now r id value st =
        (-1, store st k (handle_buffer_overflow now s))) ∨
    (validate_sensor_data value = 0 ∧ s.readings_count ≥ s.readings_capacity ∧ r = none ∧
      add_sensor_reading now r id value st = (-1, st)) ∨
    (∃ s1, validate_sensor_data value = 0 ∧
      (s.readings_count ≥ s.readings_capacity → r ≠ none) ∧
      s1.readings_capacity =
        (if s.readings_count ≥ s.readings_capacity then s.readings_capacity * 2
         else s.readings_capacity) ∧
      s1.readings_count = s.readings_count + 1 ∧
      sensor_step s s1 ∧
      add_sensor_reading now r id value st = (0, store st k s1)) := by
  by_cases hv : validate_sensor_data value = 0
  · right
    by_cases hfull : s.readings_count ≥ s.readings_capacity
    · cases r with
      | none =>
        have hres : add_sensor_reading now none id value st = (-1, st) := by
          unfold add_sensor_reading
          simp only [hf]
          rw [if_neg (by simp [hv])]
          simp only [hfull, if_true]
        exact Or.inl ⟨hv, hfull, rfl, hres⟩
      | some fresh =>
        have hres : add_sensor_reading now (some fresh) id value st =
            (0, store st k
              { s with
                sensor_readings :=
                  (realloc_readings s.sensor_readings (s.readings_capacity * 2) fresh).set
                    s.readings_count value
                readings_capacity := s.readings_capacity * 2
                readings_count := s.readings_count + 1
                last_updated := now }) := by
          unfold add_sensor_reading
          simp only [hf]
          rw [if_neg (by simp [hv])]
          simp only [hfull, if_true]
        refine Or.inr ⟨_, hv, fun _ => by simp, ?_, rfl,
          sensor_step.grown_stored now value fresh hv hfull, hres⟩
        rw [if_pos hfull]
    · have hres : add_sensor_reading now r id value st =
          (0, store st k
            { s with
              sensor_readings := s.sensor_readings.set s.readings_count value
              readings_count := s.readings_count + 1
              last_updated := now }) := by
        unfold add_sensor_reading
        simp only [hf]
        rw [if_neg (by simp [hv])]
        simp only [hfull, if_false]
      refine Or.inr ⟨_, hv, fun h => absurd h hfull, ?_, rfl,
        sensor_step.stored now value hv hfull, hres⟩
      rw [if_neg hfull]
  · exact Or.inl ⟨hv, add_sensor_reading_of_invalid hf hv now r⟩

theorem mem_entries_store {st : SystemState} {id : Int} {k : Nat} {s s1 x : TrafficSensor}
    (hf : find_sensor st id = some (k, s)) (hx : x ∈ entries (store st k s1)) :
    x = s1 ∨ x ∈ entries st := by
  obtain ⟨g1, _, _, g4⟩ := find_sensor_split hf
  rw [g4 s1] at hx
  rw [g1]
  simp only [List.mem_append, List.mem_cons] at hx ⊢
  rcases hx with hx | hx | hx
  · exact Or.inr (Or.inl hx)
  · exact Or.inl hx
  · exact Or.inr (Or.inr (Or.inr hx))

/-- Every sensor of the registry after a call is either the sensor a
successful `add_sensor` has just created, for an id that was absent, or comes
from a sensor of the registry before the call by `sensor_step`. -/
theorem step_entries (st : SystemState) (op : Op) (hok : array_ok st) :
    ∀ s1 ∈ entries (step st op),
      (∃ (now : Int) (r m c : Bool) (id : Int) (loc : List Nat),
        op = Op.add now r m c id loc ∧ ¬ present st id ∧ s1 = init_sensor now id loc) ∨
      ∃ s ∈ entries st, sensor_step s s1 := by
  intro s1 hs1
  cases op with
  | add now r m c id loc =>
    obtain ⟨_, h2⟩ := add_sensor_cases hok now r m c id loc
    simp only [step] at hs1
    rcases h2 with h2 | ⟨habs, h2⟩
    · rw [h2] at hs1
      exact Or.inr ⟨s1, hs1, sensor_step.same⟩
    · rw [h2] at hs1
      simp only [List.mem_append, List.mem_singleton] at hs1
      rcases hs1 with h | h
      · exact Or.inr ⟨s1, h, sensor_step.same⟩
      · exact Or.inl ⟨now, r, m, c, id, loc, rfl, habs, h⟩
  | remove id =>
    right
    simp only [step] at hs1
    by_cases hp : present st id
    · obtain ⟨⟨k, s⟩, hf⟩ := Option.isSome_iff_exists.mp (find_sensor_isSome_iff.mpr hp)
      obtain ⟨_, h2, _, _, _⟩ := remove_sensor_of_found hok hf
      rw [h2] at hs1
      refine ⟨s1, ?_, sensor_step.same⟩
      rw [(find_sensor_split hf).1]
      simp only [List.mem_append, List.mem_cons] at hs1 ⊢
      rcases hs1 with h | h
      · exact Or.inl h
      · exact Or.inr (Or.inr h)
    · rw [remove_sensor_of_absent hp] at hs1
      exact ⟨s1, hs1, sensor_step.same⟩
  | reading now r id v =>
    right
    simp only [step] at hs1
    cases hf : find_sensor st id with
    | none =>
      rw [add_sensor_reading_of_absent hf] at hs1
      exact ⟨s1, hs1, sensor_step.same⟩
    | some p =>
      obtain ⟨k, s⟩ := p
      rcases add_sensor_reading_result hf now r v with
        ⟨_, h⟩ | ⟨_, _, _, h⟩ | ⟨t, _, _, _, _, hstep, h⟩
      · rw [h] at hs1
        rcases mem_entries_store hf hs1 with e | e
        · exact ⟨s, mem_entries_of_find hf, by rw [e]; exact sensor_step.reset now⟩
        · exact ⟨s1, e, sensor_step.same⟩
      · rw [h] at hs1
        exact ⟨s1, hs1, sensor_step.same⟩
      · rw [h] at hs1
        rcases mem_entries_store hf hs1 with e | e
        · exact ⟨s, mem_entries_of_find hf, by rw [e]; exact hstep⟩
        · exact ⟨s1, e, sensor_step.same⟩
  | status now id status =>
    right
    simp only [step] at hs1
    rcases update_sensor_status_cases st now id status with h | ⟨k, t, hf, h0, h2, h⟩
    · rw [h] at hs1
      exact ⟨s1, hs1, sensor_step.same⟩
    · rw [h] at hs1
      rcases mem_entries_store hf hs1 with e | e
      · exact ⟨t, mem_entries_of_find hf, by rw [e]; exact sensor_step.status now status h0 h2⟩
      · exact ⟨s1, e, sensor_step.same⟩
  | collect now =>
    right
    simp only [step, garbage_collect] at hs1
    rw [entries_garbage_collect_with] at hs1
    obtain ⟨y, hy, hxy⟩ := List.mem_map.mp hs1
    exact ⟨y, hy, by rw [← hxy]; exact sensor_step.swept _ _⟩

theorem sensor_step_id {s s1 : TrafficSensor} (h : sensor_step s s1) :
    s1.sensor_id = s.sensor_id := by
  cases h with
  | same => rfl
  | swept threshold now => exact demote_sensor_id threshold now s
  | status => rfl
  | reset => rfl
  | stored => rfl
  | grown_stored => rfl

theorem sensor_step_location {s s1 : TrafficSensor} (h : sensor_step s s1) :
    s1.location = s.location := by
  cases h with
  | same => rfl
  | swept threshold now =>
    unfold demote
    by_cases hs : now - s.last_updated > threshold <;> simp [hs]
  | status => rfl
  | reset => rfl
  | stored => rfl
  | grown_stored => rfl

/-- No step sets `is_active`: an inactive sensor stays inactive. -/
theorem sensor_step_inactive {s s1 : TrafficSensor} (h : sensor_step s s1)
    (hs : s.is_active = false) : s1.is_active = false := by
  cases h with
  | same => exact hs
  | swept threshold now =>
    unfold demote
    by_cases hst : now - s.last_updated > threshold
    · rw [if_pos hst]
    · rw [if_neg hst]; exact hs
  | status => exact hs
  | reset => exact hs
  | stored => exact hs
  | grown_stored => exact hs

theorem sensor_step_status {s s1 : TrafficSensor} (h : sensor_step s s1)
    (hs : 0 ≤ s.current_status ∧ s.current_status ≤ 2) :
    0 ≤ s1.current_status ∧ s1.current_status ≤ 2 := by
  cases h with
  | same => exact hs
  | swept threshold now =>
    unfold demote
    by_cases hst : now - s.last_updated > threshold
    · rw [if_pos hst]; exact hs
    · rw [if_neg hst]; exact hs
  | status now status h0 h2 => exact ⟨h0, h2⟩
  | reset => exact hs
  | stored => exact hs
  | grown_stored => exact hs

/-- A step keeps every stored reading accepted by the validator. -/
theorem sensor_step_readings {s s1 : TrafficSensor} (h : sensor_step s s1) (hs : sensor_ok s)
    (hall : ∀ v ∈ readings s, validate_sensor_data v = 0) :
    ∀ v ∈ readings s1, validate_sensor_data v = 0 := by
  obtain ⟨h1, h2, h3⟩ := hs
  cases h with
  | same => exact hall
  | swept threshold now =>
    have : readings (demote threshold now s) = readings s := by
      unfold demote
      by_cases hst : now - s.last_updated > threshold
      · rw [if_pos hst]; rfl
      · rw [if_neg hst]
    rw [this]; exact hall
  | status => exact hall
  | reset now =>
    intro v hv
    simp [readings, handle_buffer_overflow] at hv
  | stored now value hv hroom =>
    intro v hmem
    unfold readings at hmem hall
    simp only at hmem
    rw [take_succ_set _ _ _ (by omega)] at hmem
    simp only [List.mem_append, List.mem_singleton] at hmem
    rcases hmem with hmem | hmem
    · exact hall v hmem
    · rw [hmem]; exact hv
  | grown_stored now value fresh hv hfull =>
    intro v hmem
    unfold readings at hmem hall
    simp only at hmem
    rw [take_succ_set _ _ _ (by rw [realloc_readings_length]; omega),
      realloc_readings_take _ _ _ _ (by omega) (by omega)] at hmem
    simp only [List.mem_append, List.mem_singleton] at hmem
    rcases hmem with hmem | hmem
    · exact hall v hmem
    · rw [hmem]; exact hv

/-! ## Failure paths and lookups -/

theorem remove_sensor_fst_of_found {st : SystemState} {id : Int} {k : Nat} {s : TrafficSensor}
    (hf : find_sensor st id = some (k, s)) : (remove_sensor id st).1 = 0 := by
  unfold remove_sensor
  unfold find_sensor at hf
  rw [remove_sensor_loop_eq, hf]

theorem present_iff_find {st : SystemState} {id : Int} :
    present st id ↔ ∃ k s, find_sensor st id = some (k, s) := by
  constructor
  · intro h
    obtain ⟨⟨k, s⟩, hks⟩ := Option.isSome_iff_exists.mp (find_sensor_isSome_iff.mpr h)
    exact ⟨k, s, hks⟩
  · rintro ⟨k, s, h⟩
    exact find_sensor_isSome_iff.mp (by rw [h]; rfl)

theorem find_sensor_none_of_absent {st : SystemState} {id : Int} (h : ¬ present st id) :
    find_sensor st id = none := by
  rw [find_sensor_none_iff]
  exact fun s hs hid => h ⟨s, hs, hid⟩

theorem entries_inj_of_nodup {st : SystemState} (hnd : (ids st).Nodup) {s t : TrafficSensor}
    (hs : s ∈ entries st) (ht : t ∈ entries st) (hid : s.sensor_id = t.sensor_id) : s = t := by
  unfold ids at hnd
  exact List.inj_on_of_nodup_map hnd hs ht hid

/-- C11: for an id that is not in the registry `remove_sensor` returns -1 and
leaves the state as it was (same entries, same order, same count); and for
every id it returns 0 exactly when the id is in the registry. -/
theorem remove_sensor_absent_fails (st : SystemState) (id : Int) :
    (¬ present st id →
      (remove_sensor id st).1 = -1 ∧ (remove_sensor id st).2 = st ∧
      entries (remove_sensor id st).2 = entries st ∧
      (remove_sensor id st).2.sensor_count = st.sensor_count) ∧
    ((remove_sensor id st).1 = 0 ↔ present st id) := by
  constructor
  · intro h
    rw [remove_sensor_of_absent h]
    exact ⟨rfl, rfl, rfl, rfl⟩
  · constructor
    · intro h
      by_contra hp
      rw [remove_sensor_of_absent hp] at h
      simp at h
    · intro hp
      obtain ⟨k, s, hf⟩ := present_iff_find.mp hp
      exact remove_sensor_fst_of_found hf

/-- C12: `update_sensor_status` returns 0 exactly when the status is 0, 1 or 2
and the id is in the registry.  When it returns 0, the first sensor with the
id has the requested status and the current time as `last_updated`, its
readings, capacity, `is_active`, id and location are as before, and no other
sensor has changed.  Otherwise it returns -1 and the state is as it was. -/
theorem update_sensor_status_spec (st : SystemState) (now id status : Int) :
    ((update_sensor_status now id status st).1 = 0 ↔
      (0 ≤ status ∧ status ≤ 2 ∧ present st id)) ∧
    ((update_sensor_status now id status st).1 = 0 →
      ∃ (pre post : List TrafficSensor) (s s1 : TrafficSensor),
        entries st = pre ++ s :: post ∧
        entries (update_sensor_status now id status st).2 = pre ++ s1 :: post ∧
        s.sensor_id = id ∧ (∀ x ∈ pre, x.sensor_id ≠ id) ∧
        s1.current_status = status ∧ s1.last_updated = now ∧
        s1.sensor_readings = s.sensor_readings ∧ s1.readings_count = s.readings_count ∧
        readings s1 = readings s ∧
        s1.readings_capacity = s.readings_capacity ∧ s1.is_active = s.is_active ∧
        s1.sensor_id = s.sensor_id ∧ s1.location = s.location ∧
        (update_sensor_status now id status st).2.sensor_count = st.sensor_count ∧
        (update_sensor_status now id status st).2.sensor_capacity = st.sensor_capacity) ∧
    ((update_sensor_status now id status st).1 ≠ 0 →
      (update_sensor_status now id status st).1 = -1 ∧
      (update_sensor_status now id status st).2 = st) := by
  by_cases hs : status < 0 ∨ status > 2
  · have hres : update_sensor_status now id status st = (-1, st) := by
      unfold update_sensor_status
      rw [if_pos hs]
    rw [hres]
    refine ⟨⟨fun h => by simp at h, fun h => ?_⟩, fun h => by simp at h,
      fun _ => ⟨rfl, rfl⟩⟩
    omega
  · cases hf : find_sensor st id with
    | none =>
      have hres : update_sensor_status now id status st = (-1, st) := by
        unfold update_sensor_status
        rw [if_neg hs]
        simp only [hf]
      rw [hres]
      refine ⟨⟨fun h => by simp at h, fun h => ?_⟩, fun h => by simp at h,
        fun _ => ⟨rfl, rfl⟩⟩
      obtain ⟨k, s, hks⟩ := present_iff_find.mp h.2.2
      rw [hf] at hks
      cases hks
    | some p =>
      obtain ⟨k, s⟩ := p
      have hres : update_sensor_status now id status st =
          (0, store st k { s with current_status := status, last_updated := now }) := by
        unfold update_sensor_status
        rw [if_neg hs]
        simp only [hf]
      rw [hres]
      obtain ⟨g1, g2, g3, g4⟩ := find_sensor_split hf
      refine ⟨⟨fun _ => ⟨by omega, by omega, present_iff_find.mpr ⟨k, s, hf⟩⟩, fun _ => rfl⟩,
        fun _ => ?_, fun h => absurd rfl h⟩
      exact ⟨entries_before st k, entries_after st k, s, _, g1, g4 _, g2, g3, rfl, rfl, rfl,
        rfl, rfl, rfl, rfl, rfl, rfl, rfl, rfl⟩

/-- C13: for an id that is not in the registry `add_sensor_reading` returns -1
for every value, valid or not, and leaves the whole state as it was: nothing
is stored, no log is reset and no `last_updated` is touched. -/
theorem add_sensor_reading_absent_fails (st : SystemState) (id : Int)
    (h : ¬ present st id) (now : Int) (r : Option (List CFloat)) (value : CFloat) :
    (add_sensor_reading now r id value st).1 = -1 ∧
    (add_sensor_reading now r id value st).2 = st ∧
    entries (add_sensor_reading now r id value st).2 = entries st := by
  rw [add_sensor_reading_of_absent (find_sensor_none_of_absent h)]
  exact ⟨rfl, rfl, rfl⟩

/-- C14: in a consistent registry with pairwise distinct ids, after one call of
any operation with any arguments, every sensor that was inactive before the
call and is still in the registry (a sensor with its id is) is inactive. -/
theorem inactive_stays_inactive (st : SystemState) (op : Op) (hok : array_ok st)
    (hdistinct : (ids st).Nodup) (s : TrafficSensor) (hs : s ∈ entries st)
    (hinactive : s.is_active = false) (s1 : TrafficSensor)
    (hs1 : s1 ∈ entries (step st op)) (hid : s1.sensor_id = s.sensor_id) :
    s1.is_active = false := by
  rcases step_entries st op hok s1 hs1 with ⟨now, r, m, c, id, loc, _, habs, h⟩ | ⟨s0, hs0, hstep⟩
  · exfalso
    apply habs
    refine ⟨s, hs, ?_⟩
    rw [← hid, h]
    rfl
  · have e : s0 = s := entries_inj_of_nodup hdistinct hs0 hs
      (by rw [← sensor_step_id hstep, hid])
    rw [e] at hstep
    exact sensor_step_inactive hstep hinactive

/-- C17: `find_sensor` returns a pointer exactly when some entry has the id and
`NULL` exactly when none has; the sensor it returns has the id, lies in a slot
below `sensor_count`, and is the first entry with the id in registry order. -/
theorem find_sensor_spec (st : SystemState) (id : Int) :
    ((find_sensor st id).isSome = true ↔ present st id) ∧
    (find_sensor st id = none ↔ ¬ present st id) ∧
    ∀ (k : Nat) (s : TrafficSensor), find_sensor st id = some (k, s) →
      s.sensor_id = id ∧ k < st.sensor_count ∧ slot st.sensors k = some s ∧
      s ∈ entries st ∧
      ∃ (pre post : List TrafficSensor),
        entries st = pre ++ s :: post ∧ ∀ x ∈ pre, x.sensor_id ≠ id := by
  refine ⟨find_sensor_isSome_iff, ?_, ?_⟩
  · rw [find_sensor_none_iff]
    constructor
    · rintro h ⟨s, hs, hid⟩; exact h s hs hid
    · intro h s hs hid; exact h ⟨s, hs, hid⟩
  · intro k s hf
    obtain ⟨h1, h2, h3, _⟩ := find_sensor_some_iff.mp hf
    obtain ⟨g1, _, g3, _⟩ := find_sensor_split hf
    exact ⟨h3, h1, h2, mem_entries_of_find hf, entries_before st k, entries_after st k, g1, g3⟩

/-! ## Invariants of the sensors of reachable states -/

/-- A property of sensors that holds of every new sensor and is kept by every
step from a sensor with a consistent buffer holds of every sensor of every
reachable state. -/
theorem reachable_invariant (P : TrafficSensor → Prop)
    (hinit : ∀ (now id : Int) (loc : List Nat), P (init_sensor now id loc))
    (hstep : ∀ s s1, sensor_step s s1 → sensor_ok s → P s → P s1) :
    ∀ (ops : List Op), ∀ s ∈ entries (run ops initial), P s := by
  have key : ∀ (l : List Op) (s0 : SystemState), array_ok s0 → (ids s0).Nodup →
      (∀ x ∈ entries s0, sensor_ok x) → (∀ x ∈ entries s0, P x) →
      ∀ x ∈ entries (run l s0), P x := by
    intro l
    induction l with
    | nil => intro s0 _ _ _ h4; exact h4
    | cons op rest ih =>
      intro s0 h1 h2 h3 h4
      obtain ⟨g1, g2⟩ := step_preserves s0 op h1 h2
      refine ih (step s0 op) g1 g2 (step_preserves_sensor_ok s0 op h1 h3) ?_
      intro x hx
      rcases step_entries s0 op h1 x hx with ⟨now, _, _, _, id, loc, _, _, h⟩ | ⟨y, hy, hxy⟩
      · rw [h]; exact hinit now id loc
      · exact hstep y x hxy (h3 y hy) (h4 y hy)
  intro ops
  exact key ops initial (by decide) (by decide)
    (by intro x hx; simp [entries, initial] at hx)
    (by intro x hx; simp [entries, initial] at hx)

theorem c_string_strncpy_nil : ∀ (n : Nat) (tail : List Nat),
    c_string (strncpy [] n ++ 0 :: tail) = [] := by
  intro n tail
  cases n with
  | zero => simp [strncpy, c_string]
  | succ n => simp [strncpy, c_string]

/-- The string left by `strncpy(dst, src, n)` followed by a zero byte is the
string at `src`, cut after `n` characters. -/
theorem c_string_strncpy : ∀ (n : Nat) (src : List Nat),
    c_string (strncpy src n ++ [0]) = (c_string src).take n := by
  intro n
  induction n with
  | zero => intro src; simp [strncpy, c_string]
  | succ n ih =>
    intro src
    cases src with
    | nil => simp [strncpy, c_string]
    | cons c cs =>
      by_cases hc : c = 0
      · simp [strncpy, c_string, hc]
      · have h := ih cs
        unfold c_string at h ⊢
        simp only [strncpy, hc, if_false, List.cons_append]
        rw [List.takeWhile_cons_of_pos (by simpa using hc),
          List.takeWhile_cons_of_pos (by simpa using hc), List.take_succ_cons, h]

theorem strncpy_length : ∀ (n : Nat) (src : List Nat), (strncpy src n).length = n := by
  intro n
  induction n with
  | zero => intro src; simp [strncpy]
  | succ n ih =>
    intro src
    cases src with
    | nil => simp [strncpy, ih]
    | cons c cs =>
      by_cases hc : c = 0
      · simp [strncpy, hc, ih]
      · simp [strncpy, hc, ih]

theorem c_string_of_no_zero (l : List Nat) (h : ∀ c ∈ l, c ≠ 0) : c_string l = l := by
  unfold c_string
  rw [List.takeWhile_eq_self_iff]
  intro c hc
  simpa using h c hc

/-- C16: for an id that is not in the registry and a location string of any
length, `add_sensor` (its allocations succeeding) returns 0 and appends a
sensor whose location is the string cut after 49 characters: the whole string
when it has at most 49 characters, its first 49 characters otherwise. -/
theorem add_sensor_location (st : SystemState) (hok : array_ok st) (id : Int)
    (h : ¬ present st id) (now : Int) (loc : List Nat) :
    (add_sensor now true true true id loc st).1 = 0 ∧
    ∃ new_sensor : TrafficSensor,
      entries (add_sensor now true true true id loc st).2 = entries st ++ [new_sensor] ∧
      new_sensor.sensor_id = id ∧
      new_sensor.location.length = 50 ∧
      c_string new_sensor.location = (c_string loc).take 49 ∧
      (c_string new_sensor.location).length = min (c_string loc).length 49 ∧
      ((c_string loc).length ≤ 49 → c_string new_sensor.location = c_string loc) ∧
      ((∀ c ∈ loc, c ≠ 0) → c_string new_sensor.location = loc.take 49) := by
  obtain ⟨h1, h2, _, _⟩ := add_sensor_of_absent hok h now loc
  have hloc : c_string (init_sensor now id loc).location = (c_string loc).take 49 :=
    c_string_strncpy 49 loc
  refine ⟨h1, init_sensor now id loc, h2, rfl, ?_, hloc, ?_, ?_, ?_⟩
  · simp [init_sensor, strncpy_length]
  · rw [hloc, List.length_take, Nat.min_comm]
  · intro hlen
    rw [hloc, List.take_of_length_le hlen]
  · intro hnz
    rw [hloc, c_string_of_no_zero loc hnz]

/-! ## Ids, statuses and readings of reachable states -/

theorem run_ids_added : ∀ (ops : List Op) (st : SystemState), array_ok st → (ids st).Nodup →
    ∀ s ∈ entries (run ops st), s.sensor_id ∈ ids st ∨ s.sensor_id ∈ added_ids ops := by
  intro ops
  induction ops with
  | nil =>
    intro st _ _ s hs
    exact Or.inl (List.mem_map_of_mem _ hs)
  | cons op rest ih =>
    intro st hok hnd s hs
    obtain ⟨g1, g2⟩ := step_preserves st op hok hnd
    have hrun : run (op :: rest) st = run rest (step st op) := rfl
    rw [hrun] at hs
    have hsub : added_ids rest ⊆ added_ids (op :: rest) := by
      intro x hx
      cases op <;> simp [added_ids, hx]
    rcases ih (step st op) g1 g2 s hs with h | h
    · obtain ⟨y, hy, hys⟩ := List.mem_map.mp h
      rcases step_entries st op hok y hy with ⟨now, r, m, c, id, loc, hop, _, e⟩ | ⟨z, hz, hstep⟩
      · right
        rw [← hys, e, hop]
        simp [added_ids, init_sensor]
      · left
        rw [← hys, sensor_step_id hstep]
        exact List.mem_map_of_mem _ hz
    · exact Or.inr (hsub h)

/-- C18, counterexample: `add_sensor` accepts the id -5, so after that one call
the registry holds a sensor with a negative id. -/
theorem negative_id_reachable :
    ids (run [Op.add 0 true true true (-5) []] initial) = [-5] ∧
    ∃ s ∈ entries (run [Op.add 0 true true true (-5) []] initial), s.sensor_id < 0 := by
  decide

/-- C18, amended: in every reachable state the id of every sensor is an id that
was given to an `add_sensor` call of the sequence; so every id is non-negative
when every id given to `add_sensor` was. -/
theorem reachable_ids_were_added (ops : List Op) :
    (∀ s ∈ entries (run ops initial), s.sensor_id ∈ added_ids ops) ∧
    ((∀ id ∈ added_ids ops, 0 ≤ id) → ∀ s ∈ entries (run ops initial), 0 ≤ s.sensor_id) := by
  have key : ∀ s ∈ entries (run ops initial), s.sensor_id ∈ added_ids ops := by
    intro s hs
    rcases run_ids_added ops initial (by decide) (by decide) s hs with h | h
    · simp [ids, entries, initial] at h
    · exact h
  exact ⟨key, fun hall s hs => hall _ (key s hs)⟩

/-- C19: in every reachable state the status of every sensor is 0, 1 or 2, an
index within the three entries of `status_names`; and a call of
`update_sensor_status` that returns 0 was given such a status. -/
theorem reachable_status_in_range :
    (∀ (ops : List Op), ∀ s ∈ entries (run ops initial),
      0 ≤ s.current_status ∧ s.current_status ≤ 2 ∧
      s.current_status.toNat < status_names.length) ∧
    (∀ (st : SystemState) (now id status : Int),
      (update_sensor_status now id status st).1 = 0 →
      0 ≤ status ∧ status ≤ 2 ∧ status.toNat < status_names.length) := by
  have hlen : status_names.length = 3 := rfl
  constructor
  · intro ops s hs
    have h := reachable_invariant (fun x => 0 ≤ x.current_status ∧ x.current_status ≤ 2)
      (fun _ _ _ => ⟨le_refl _, by simp [init_sensor]⟩) (fun x x1 hstep _ hx => sensor_step_status hstep hx)
      ops s hs
    refine ⟨h.1, h.2, ?_⟩
    rw [hlen]
    omega
  · intro st now id status h
    rcases update_sensor_status_cases st now id status with e | ⟨k, t, _, h0, h2, _⟩
    · rw [e] at h
      simp at h
    · refine ⟨h0, h2, ?_⟩
      rw [hlen]
      omega

/-- C20: in every reachable state every reading in the log of a sensor
(positions 0 to `readings_count - 1` of its buffer) is a value that
`validate_sensor_data` accepts. -/
theorem reachable_readings_validated (ops : List Op) :
    ∀ s ∈ entries (run ops initial), ∀ v ∈ readings s, validate_sensor_data v = 0 := by
  refine reachable_invariant (fun x => ∀ v ∈ readings x, validate_sensor_data v = 0)
    ?_ (fun x x1 hstep hok hx => sensor_step_readings hstep hok hx) ops
  intro now id loc v hv
  simp [readings, init_sensor] at hv

/-! ## Further instances on sample states -/

/-- C11 at a sample state: sensor 7 is not in the sample registry, and
removing it fails and changes nothing. -/
theorem remove_sensor_absent_fails_witness :
    ¬ present sample_registry 7 ∧
    ((remove_sensor 7 sample_registry).1 = -1 ∧
      (remove_sensor 7 sample_registry).2 = sample_registry ∧
      entries (remove_sensor 7 sample_registry).2 = entries sample_registry ∧
      (remove_sensor 7 sample_registry).2.sensor_count = sample_registry.sensor_count) :=
  ⟨by decide, (remove_sensor_absent_fails sample_registry 7).1 (by decide)⟩

/-- C12 at a sample state: setting sensor 2 of the sample registry to status 1
returns 0, and setting it to status 3 returns -1 and changes nothing. -/
theorem update_sensor_status_spec_witness :
    ((update_sensor_status 50 2 1 sample_registry).1 = 0 ∧
      ∃ (pre post : List TrafficSensor) (s s1 : TrafficSensor),
        entries sample_registry = pre ++ s :: post ∧
        entries (update_sensor_status 50 2 1 sample_registry).2 = pre ++ s1 :: post ∧
        s.sensor_id = 2 ∧ (∀ x ∈ pre, x.sensor_id ≠ 2) ∧
        s1.current_status = 1 ∧ s1.last_updated = 50 ∧
        s1.sensor_readings = s.sensor_readings ∧ s1.readings_count = s.readings_count ∧
        readings s1 = readings s ∧
        s1.readings_capacity = s.readings_capacity ∧ s1.is_active = s.is_active ∧
        s1.sensor_id = s.sensor_id ∧ s1.location = s.location ∧
        (update_sensor_status 50 2 1 sample_registry).2.sensor_count =
          sample_registry.sensor_count ∧
        (update_sensor_status 50 2 1 sample_registry).2.sensor_capacity =
          sample_registry.sensor_capacity) ∧
    ((update_sensor_status 50 2 3 sample_registry).1 ≠ 0 ∧
      (update_sensor_status 50 2 3 sample_registry).1 = -1 ∧
      (update_sensor_status 50 2 3 sample_registry).2 = sample_registry) :=
  ⟨⟨by decide, (update_sensor_status_spec sample_registry 50 2 1).2.1 (by decide)⟩,
    ⟨by decide, (update_sensor_status_spec sample_registry 50 2 3).2.2 (by decide)⟩⟩

/-- C13 at a sample state: a reading for the absent sensor 7 fails and changes
nothing. -/
theorem add_sensor_reading_absent_fails_witness :
    ¬ present sample_registry 7 ∧
    ((add_sensor_reading 50 none 7 (CFloat.fin 1500 0) sample_registry).1 = -1 ∧
      (add_sensor_reading 50 none 7 (CFloat.fin 1500 0) sample_registry).2 = sample_registry ∧
      entries (add_sensor_reading 50 none 7 (CFloat.fin 1500 0) sample_registry).2 =
        entries sample_registry) :=
  ⟨by decide,
    add_sensor_reading_absent_fails sample_registry 7 (by decide) 50 none (CFloat.fin 1500 0)⟩

/-- C14 at a sample state: the inactive sensor 1 receives a reading and stays
inactive. -/
theorem inactive_stays_inactive_witness :
    array_ok sample_swept_registry ∧ (ids sample_swept_registry).Nodup ∧
    sample_inactive_sensor ∈ entries sample_swept_registry ∧
    sample_inactive_sensor.is_active = false ∧
    sample_inactive_sensor_after ∈
      entries (step sample_swept_registry (Op.reading 3700 none 1 (CFloat.fin 45 0))) ∧
    sample_inactive_sensor_after.sensor_id = sample_inactive_sensor.sensor_id ∧
    sample_inactive_sensor_after.is_active = false :=
  ⟨by decide, by decide, by decide, by decide, by decide, by decide,
    inactive_stays_inactive sample_swept_registry (Op.reading 3700 none 1 (CFloat.fin 45 0))
      (by decide) (by decide) sample_inactive_sensor (by decide) (by decide)
      sample_inactive_sensor_after (by decide) (by decide)⟩

/-- C16 at a sample state: a location of 60 characters is cut to 49. -/
theorem add_sensor_location_witness :
    array_ok sample_registry ∧ ¬ present sample_registry 7 ∧
    ((add_sensor 50 true true true 7 (List.replicate 60 65) sample_registry).1 = 0 ∧
      ∃ new_sensor : TrafficSensor,
        entries (add_sensor 50 true true true 7 (List.replicate 60 65) sample_registry).2 =
          entries sample_registry ++ [new_sensor] ∧
        new_sensor.sensor_id = 7 ∧
        new_sensor.location.length = 50 ∧
        c_string new_sensor.location = (c_string (List.replicate 60 65)).take 49 ∧
        (c_string new_sensor.location).length =
          min (c_string (List.replicate 60 65)).length 49 ∧
        ((c_string (List.replicate 60 65)).length ≤ 49 →
          c_string new_sensor.location = c_string (List.replicate 60 65)) ∧
        ((∀ c ∈ List.replicate 60 65, c ≠ 0) →
          c_string new_sensor.location = (List.replicate 60 65).take 49)) :=
  ⟨by decide, by decide,
    add_sensor_location sample_registry (by decide) 7 (by decide) 50 (List.replicate 60 65)⟩

/-- C17 at a sample state: the lookup of sensor 1 in the full sample registry. -/
theorem find_sensor_spec_witness :
    find_sensor sample_full_registry 1 = some (0, sample_full_sensor) ∧
    (sample_full_sensor.sensor_id = 1 ∧ 0 < sample_full_registry.sensor_count ∧
      slot sample_full_registry.sensors 0 = some sample_full_sensor ∧
      sample_full_sensor ∈ entries sample_full_registry ∧
      ∃ (pre post : List TrafficSensor),
        entries sample_full_registry = pre ++ sample_full_sensor :: post ∧
        ∀ x ∈ pre, x.sensor_id ≠ 1) :=
  ⟨by decide, (find_sensor_spec sample_full_registry 1).2.2 0 sample_full_sensor (by decide)⟩

/-- C18 at a sample state: the id of sensor 1 of the full sample registry was
given to an `add_sensor` call. -/
theorem reachable_ids_were_added_witness :
    sample_full_sensor ∈ entries (run sample_full_ops initial) ∧
    sample_full_sensor.sensor_id ∈ added_ids sample_full_ops :=
  ⟨by decide, (reachable_ids_were_added sample_full_ops).1 sample_full_sensor (by decide)⟩

/-- C19 at a sample state: the status of sensor 1 of the full sample registry. -/
theorem reachable_status_in_range_witness :
    sample_full_sensor ∈ entries (run sample_full_ops initial) ∧
    (0 ≤ sample_full_sensor.current_status ∧ sample_full_sensor.current_status ≤ 2 ∧
      sample_full_sensor.current_status.toNat < status_names.length) :=
  ⟨by decide, reachable_status_in_range.1 sample_full_ops sample_full_sensor (by decide)⟩

/-- C20 at a sample state: the reading 30 in the log of sensor 1 of the full
sample registry. -/
theorem reachable_readings_validated_witness :
    sample_full_sensor ∈ entries (run sample_full_ops initial) ∧
    CFloat.fin 30 0 ∈ readings sample_full_sensor ∧
    validate_sensor_data (CFloat.fin 30 0) = 0 :=
  ⟨by decide, by decide,
    reachable_readings_validated sample_full_ops sample_full_sensor (by decide)
      (CFloat.fin 30 0) (by decide)⟩

/-! ## A NaN reading -/

/-- C5, at the failing input: a NaN is outside the band `[0, 1000]`, yet for
sensor 1 holding the one reading 45 the call `add_sensor_reading(1, NaN)`
returns 0 and stores the NaN: the log is not reset, its count goes from 1 to
2, and the sensor is stamped as after a successful append. -/
theorem add_sensor_reading_stores_nan :
    present sample_logged_registry 1 ∧
    ¬ in_band CFloat.nan ∧
    (entries sample_logged_registry).map readings = [[CFloat.fin 45 0]] ∧
    (add_sensor_reading 2 none 1 CFloat.nan sample_logged_registry).1 = 0 ∧
    (entries (add_sensor_reading 2 none 1 CFloat.nan sample_logged_registry).2).map
      readings = [[CFloat.fin 45 0, CFloat.nan]] ∧
    (entries (add_sensor_reading 2 none 1 CFloat.nan sample_logged_registry).2).map
      (fun s => s.readings_count) = [2] := by
  decide

end TrafficSystem
